import Mathlib

/-!
# Verification of the turbo-tasks memory backend core

Shallow embedding of the task lifecycle and scope engine of the
`turbo-tasks-memory` crate (files `task.rs`, `output.rs`) and of the
auxiliary `auto-hash-map` set (`set.rs`).

State that lives behind locks in the Rust source is modelled by explicit
state passing; the side effects a function requests from the executor
(`schedule`, background/foreground jobs, dependent-task notification,
event firing) are returned as an explicit list of `Effect`s.  A Rust
panic is modelled by returning `none`.

Code of the repository that is not under `src/` (the scope structure in
`scope.rs`, the backend facade, `AutoMap`) is modelled from the spec;
each such definition carries a doc comment saying so.
-/

namespace Turbo

/-- Task identifiers: opaque, dense. -/
abbrev TaskId := Nat

/-- Scope identifiers: opaque, dense. -/
abbrev TaskScopeId := Nat

/-- `RawVc` from the turbo-tasks core: a value handle referencing either the
output slot of a task or one of its cells.  (`output.rs` calls the cell
variant `TaskSlot`, `task.rs` calls it `TaskCell`; it is the same variant
of the external `RawVc` enum, modelled from the spec's
`ValueHandle = TaskOutput(TaskId) | TaskCell(TaskId, CellIndex)`.) -/
inductive RawVc
  | taskOutput (task : TaskId)
  | taskCell (task : TaskId) (index : Nat)
deriving DecidableEq, Repr

/-- Errors are shared by reference in the source (`SharedError`); the model
identifies an error by an opaque numeric token. -/
abbrev SharedError := Nat

/-- `OutputContent` from `output.rs`: `Empty`, `Link(RawVc)` or
`Error(SharedError)`. -/
inductive OutputContent
  | empty
  | link (target : RawVc)
  | error (err : SharedError)
deriving DecidableEq, Repr

/-- The error a reader of an `Output` can observe: the "Output it empty"
error, or the stored shared error. -/
inductive OutputReadError
  | emptyOutput
  | shared (err : SharedError)
deriving DecidableEq, Repr

/-- `HashSet::insert` on a set modelled as a duplicate-free list: a no-op
when the element is present, otherwise appends it. -/
def insertTask (l : List TaskId) (t : TaskId) : List TaskId :=
  if t ∈ l then l else l ++ [t]

/-- `Output` from `output.rs`: content, update counter and the dependent
(reader) task set. -/
structure Output where
  content : OutputContent
  updates : Nat
  dependent_tasks : List TaskId
deriving DecidableEq, Repr

/-- An `Output` notification dispatch: one `schedule_notify_tasks_set` call
carrying the set of dependent tasks notified. -/
abbrev Notifications := List (List TaskId)

/-- `Output::assign` from `output.rs`: replace the content, increment
`updates` and notify the dependent set when it is non-empty. -/
def Output.assign (o : Output) (content : OutputContent) : Output × Notifications :=
  ({ o with content := content, updates := o.updates + 1 },
   if o.dependent_tasks.isEmpty then [] else [o.dependent_tasks])

/-- The target comparison inside `Output::link`: two output handles are
equal when they name the same task; two cell handles when they name the
same task and the same cell index; a mix is never equal. -/
def sameTarget : RawVc → RawVc → Bool
  | .taskOutput oldTask, .taskOutput newTask => oldTask == newTask
  | .taskCell oldTask oldIndex, .taskCell newTask newIndex =>
      oldTask == newTask && oldIndex == newIndex
  | _, _ => false

/-- `Output::link` from `output.rs`: a no-op when the current content is a
`Link` to an equal target, otherwise `assign (Link target)`. -/
def Output.link (o : Output) (target : RawVc) : Output × Notifications :=
  match o.content with
  | .link old => if sameTarget old target then (o, []) else o.assign (.link target)
  | .empty => o.assign (.link target)
  | .error _ => o.assign (.link target)

/-- `Output::error` from `output.rs`: always replace the content with the
error, increment `updates` and notify the non-empty dependent set. -/
def Output.error (o : Output) (err : SharedError) : Output × Notifications :=
  ({ o with content := .error err, updates := o.updates + 1 },
   if o.dependent_tasks.isEmpty then [] else [o.dependent_tasks])

/-- `Output::read_untracked` from `output.rs`: map the content to a result. -/
def Output.read_untracked (o : Output) : Except OutputReadError RawVc :=
  match o.content with
  | .empty => .error .emptyOutput
  | .error err => .error (.shared err)
  | .link target => .ok target

/-- `Output::read` from `output.rs`: insert the reader into
`dependent_tasks`, then read the content. -/
def Output.read (o : Output) (reader : TaskId) : Output × Except OutputReadError RawVc :=
  let o' := { o with dependent_tasks := insertTask o.dependent_tasks reader }
  (o', o'.read_untracked)

/-- The C4 scenario: two successive `link` calls with the same target,
collecting all notifications dispatched by both. -/
def Output.linkTwice (o : Output) (target : RawVc) : Output × Notifications :=
  let (o1, n1) := o.link target
  let (o2, n2) := o1.link target
  (o2, n1 ++ n2)

/-- The claim C4 condition "the target equals the current `Link` target":
true exactly when `link target` is a no-op. -/
def Output.linkIsNoop (o : Output) (target : RawVc) : Bool :=
  match o.content with
  | .link old => sameTarget old target
  | _ => false

/-! ## Scopes (modelled from the spec; `scope.rs` is not under `src/`) -/

/-- Modelled from the spec: a `TaskScope` (`scope.rs` is not under `src/`).
`active_count` counts external observers, `children` maps child scope ids
to multiplicities, `dirty_tasks` is the set of parked dirty member tasks,
`tasks` and `unfinished_tasks` are the member counters. -/
structure Scope where
  active_count : Nat
  children : List (TaskScopeId × Nat)
  dirty_tasks : List TaskId
  tasks : Nat
  unfinished_tasks : Nat
deriving DecidableEq, Repr

/-- The all-zero scope a freshly created scope starts as. -/
def Scope.fresh : Scope :=
  { active_count := 0, children := [], dirty_tasks := [], tasks := 0, unfinished_tasks := 0 }

/-- Modelled from the spec: a scope is active when it has observers
(`active_count > 0`). -/
def Scope.is_active (s : Scope) : Bool := s.active_count > 0

/-- Modelled from the spec: atomic increment of the member-task counter. -/
def Scope.increment_tasks (s : Scope) : Scope := { s with tasks := s.tasks + 1 }

/-- Modelled from the spec: atomic decrement of the member-task counter. -/
def Scope.decrement_tasks (s : Scope) : Scope := { s with tasks := s.tasks - 1 }

/-- Modelled from the spec: atomic increment of `unfinished_tasks`. -/
def Scope.increment_unfinished_tasks (s : Scope) : Scope :=
  { s with unfinished_tasks := s.unfinished_tasks + 1 }

/-- Modelled from the spec: atomic decrement of `unfinished_tasks`. -/
def Scope.decrement_unfinished_tasks (s : Scope) : Scope :=
  { s with unfinished_tasks := s.unfinished_tasks - 1 }

/-- Modelled from the spec: insert a task into the scope's dirty set. -/
def Scope.add_dirty_task (s : Scope) (t : TaskId) : Scope :=
  { s with dirty_tasks := insertTask s.dirty_tasks t }

/-- Modelled from the spec: drop a task from the scope's dirty set. -/
def Scope.remove_dirty_task (s : Scope) (t : TaskId) : Scope :=
  { s with dirty_tasks := s.dirty_tasks.erase t }

/-- Add `v` to the multiplicity of key `k` in an association list of counts,
appending a fresh entry when the key is absent. -/
def assocBump (l : List (Nat × Nat)) (k v : Nat) : List (Nat × Nat) :=
  match l with
  | [] => [(k, v)]
  | (k', v') :: rest =>
      if k' = k then (k', v' + v) :: rest else (k', v') :: assocBump rest k v

/-- Modelled from the spec (§4.5 step 3): add a child scope with the given
multiplicity and report whether this scope observed itself as currently
active. -/
def Scope.add_child_count (s : Scope) (child : TaskScopeId) (count : Nat) : Scope × Bool :=
  ({ s with children := assocBump s.children child count }, s.is_active)

/-- Modelled from the spec (§4.4): add a child scope with multiplicity one
and report whether it was newly inserted. -/
def Scope.add_child (s : Scope) (child : TaskScopeId) : Scope × Bool :=
  ({ s with children := assocBump s.children child 1 }, (s.children.lookup child).isNone)

/-- Decrement the multiplicity of key `k` in an association list of counts,
dropping the entry when it reaches zero. -/
def assocDec (l : List (Nat × Nat)) (k : Nat) : List (Nat × Nat) :=
  match l with
  | [] => []
  | (k', v') :: rest =>
      if k' = k then (if v' ≤ 1 then rest else (k', v' - 1) :: rest)
      else (k', v') :: assocDec rest k

/-- Modelled from the spec (§4.4, symmetric removal): decrement a child
scope's multiplicity and report whether the entry was removed entirely. -/
def Scope.remove_child (s : Scope) (child : TaskScopeId) : Scope × Bool :=
  ({ s with children := assocDec s.children child },
   match s.children.lookup child with
   | some count => count ≤ 1
   | none => false)

/-- `RemoveResult` from `scope.rs` (declared there, used by `task.rs`):
outcome of removing one occurrence from the counted scope set. -/
inductive RemoveResult
  | NoEntry
  | Decreased
  | Removed
deriving DecidableEq, Repr

/-- Modelled from the spec: the counted Inner scope multiset, an
association list from scope id to a positive count. Adding increments the
count and reports whether it just went `0 → 1`. -/
def scopeListAdd (l : List (TaskScopeId × Nat)) (id : TaskScopeId) :
    List (TaskScopeId × Nat) × Bool :=
  match l.lookup id with
  | some _ => (assocBump l id 1, false)
  | none => (l ++ [(id, 1)], true)

/-- Modelled from the spec: remove one occurrence from the counted Inner
scope multiset (`NoEntry` when absent, `Removed` when the count drops
`1 → 0`, `Decreased` otherwise). -/
def scopeListRemove (l : List (TaskScopeId × Nat)) (id : TaskScopeId) :
    List (TaskScopeId × Nat) × RemoveResult :=
  match l.lookup id with
  | none => (l, .NoEntry)
  | some count =>
      if count ≤ 1 then (assocDec l id, .Removed) else (assocDec l id, .Decreased)

/-- `TaskScopes` from `scope.rs` (declared there, used by `task.rs`):
either a single root scope or the counted Inner multiset. -/
inductive TaskScopes
  | Root (scope : TaskScopeId)
  | Inner (list : List (TaskScopeId × Nat))
deriving DecidableEq, Repr

instance : Inhabited TaskScopes := ⟨.Inner []⟩

/-- `TaskScopes::iter`: the distinct containing scopes. -/
def TaskScopes.iterList : TaskScopes → List TaskScopeId
  | .Root scope => [scope]
  | .Inner list => list.map (·.1)

/-- `TaskScopes::is_root`. -/
def TaskScopes.is_root : TaskScopes → Bool
  | .Root _ => true
  | .Inner _ => false

/-! ## Task data model (from `task.rs`) -/

/-- `TaskStateType` from `task.rs`. -/
inductive TaskStateType
  | Done
  | Dirty
  | Scheduled
  | InProgress
  | InProgressDirty
deriving DecidableEq, Repr

/-- `TaskType` from `task.rs` (the bodies themselves are external
collaborators; only the variant tag and identifiers matter here). -/
inductive TaskType
  | Root
  | Once
  | Native (f : Nat)
  | ResolveNative (f : Nat)
  | ResolveTrait (t : Nat) (method : Nat)
deriving DecidableEq, Repr

/-- `Cell` from `cell.rs` (declared there, used by `task.rs`; modelled from
the spec: content plus the dependent-task set). -/
structure Cell where
  content : Option Nat
  dependent_tasks : List TaskId
deriving DecidableEq, Repr

/-- The mutable `TaskState` of `task.rs` (the `event` notifier is modelled
as an emitted `Effect`, the duration as a plain number). -/
structure TaskState where
  scopes : TaskScopes
  state_type : TaskStateType
  children : List TaskId
  output : Output
  created_cells : List Cell
  executions : Nat
  total_duration : Nat
deriving DecidableEq, Repr

/-- `TaskExecutionData` from `task.rs`: dependencies read during execution
and the cell mappings (opaque here). -/
structure TaskExecutionData where
  dependencies : List RawVc
  cell_mappings : Nat
deriving DecidableEq, Repr

/-- One task: its body variant, lock-protected state and execution data. -/
structure TaskData where
  ty : TaskType
  state : TaskState
  execution_data : TaskExecutionData
deriving DecidableEq, Repr

/-- `Job` from `memory_backend.rs` (declared there, scheduled by
`task.rs`): the background/foreground job kinds the spec enumerates. -/
inductive Job
  | RemoveFromScope (children : List TaskId) (scope : TaskScopeId)
  | RemoveFromScopes (children : List TaskId) (scopes : List TaskScopeId)
      (will_be_optimized : Bool)
  | MakeRootScoped (task : TaskId)
  | RemoveRootScope (task : TaskId)
  | AddToScopeQueue (queue : List (List TaskId × Bool)) (count : Nat) (scope : TaskScopeId)
  | RemoveFromScopeQueue (queue : List (List TaskId × Bool)) (count : Nat)
      (scope : TaskScopeId)
deriving DecidableEq, Repr

/-- The side effects an engine operation requests from the executor. -/
inductive Effect
  | schedule (t : TaskId)
  | backgroundJob (j : Job)
  | foregroundJob (j : Job)
  | notify (ts : List TaskId)
  | fireEvent (t : TaskId)
deriving DecidableEq, Repr

/-- The backend facade (modelled from the spec: the `TaskId → Task` and
`ScopeId → Scope` lookup tables plus the scope id allocator). -/
structure Backend where
  tasks : TaskId → TaskData
  scopes : TaskScopeId → Scope
  next_scope : TaskScopeId

/-- Point update of the task table. -/
def Backend.setTask (w : Backend) (t : TaskId) (d : TaskData) : Backend :=
  { w with tasks := fun t' => if t' = t then d else w.tasks t' }

/-- Point update of the scope table. -/
def Backend.setScope (w : Backend) (s : TaskScopeId) (sc : Scope) : Backend :=
  { w with scopes := fun s' => if s' = s then sc else w.scopes s' }

/-- Modelled from the spec: `increase_scope_active_by` bumps the scope's
`active_count` by the given amount. -/
def Backend.increase_scope_active_by (w : Backend) (s : TaskScopeId) (n : Nat) : Backend :=
  w.setScope s { w.scopes s with active_count := (w.scopes s).active_count + n }

/-- Modelled from the spec: `increase_scope_active` bumps `active_count`
by one. -/
def Backend.increase_scope_active (w : Backend) (s : TaskScopeId) : Backend :=
  w.increase_scope_active_by s 1

/-- Modelled from the spec: `decrease_scope_active` drops `active_count`
by one. -/
def Backend.decrease_scope_active (w : Backend) (s : TaskScopeId) : Backend :=
  w.setScope s { w.scopes s with active_count := (w.scopes s).active_count - 1 }

/-! ## Task operations (from `task.rs`) -/

namespace Task

/-- `Task::remove_dependent_task` from `task.rs`: remove the reader from the
dependent set of the output or cell the handle points to. -/
def remove_dependent_task (dep : RawVc) (reader : TaskId) (w : Backend) : Backend :=
  match dep with
  | .taskOutput t =>
      let d := w.tasks t
      w.setTask t { d with state := { d.state with output :=
        { d.state.output with
          dependent_tasks := d.state.output.dependent_tasks.erase reader } } }
  | .taskCell t index =>
      let d := w.tasks t
      let cells := d.state.created_cells
      let cells :=
        match cells.get? index with
        | some c => cells.set index { c with dependent_tasks := c.dependent_tasks.erase reader }
        | none => cells
      w.setTask t { d with state := { d.state with created_cells := cells } }

/-- `Task::clear_dependencies` from `task.rs`: drain the execution-local
dependency set and remove this task from each back-edge. -/
def clear_dependencies (self : TaskId) (w : Backend) : Backend :=
  let d := w.tasks self
  let deps := d.execution_data.dependencies
  let w := w.setTask self
    { d with execution_data := { d.execution_data with dependencies := [] } }
  deps.foldl (fun w dep => remove_dependent_task dep self w) w

/-- `Task::execution_started` from `task.rs`.  Returns `none` on the
fail-stop (Rust panic) in the `Dirty` state. -/
def execution_started (self : TaskId) (w : Backend) : Option (Backend × Bool × List Effect) :=
  let d := w.tasks self
  match d.state.state_type with
  | .Done | .InProgress | .InProgressDirty => some (w, false, [])
  | .Scheduled =>
      let st := { d.state with state_type := .InProgress, executions := d.state.executions + 1 }
      if st.children.isEmpty then
        some (w.setTask self { d with state := st }, true, [])
      else
        let set := st.children
        let st := { st with children := [] }
        let job : Job :=
          match st.scopes with
          | .Root scope => .RemoveFromScope set scope
          | .Inner list => .RemoveFromScopes set (list.map (·.1)) false
        some (w.setTask self { d with state := st }, true, [.backgroundJob job])
  | .Dirty => none

/-- `Task::execution_result` from `task.rs`: link or set the output in
`InProgress`, drop the result silently in `InProgressDirty`, fail-stop
otherwise. -/
def execution_result (self : TaskId) (result : Except SharedError RawVc) (w : Backend) :
    Option (Backend × List Effect) :=
  let d := w.tasks self
  match d.state.state_type with
  | .InProgress =>
      match result with
      | .ok target =>
          let (o, notifs) := d.state.output.link target
          some (w.setTask self { d with state := { d.state with output := o } },
                notifs.map .notify)
      | .error err =>
          let (o, notifs) := d.state.output.error err
          some (w.setTask self { d with state := { d.state with output := o } },
                notifs.map .notify)
  | .InProgressDirty => some (w, [])
  | .Dirty | .Scheduled | .Done => none

/-- The loop of `execution_completed` over the containing scopes:
decrement each scope's `unfinished_tasks` once. -/
def decrementUnfinishedFold (scopes : List TaskScopeId) (w : Backend) : Backend :=
  scopes.foldl (fun w s => w.setScope s (w.scopes s).decrement_unfinished_tasks) w

/-- `Task::execution_completed` from `task.rs`: install the drained
dependency set and the cell mappings, then transition the state.
`tracked` is the content of the execution-local `DEPENDENCIES_TO_TRACK`
set.  Returns the `schedule_again` flag. -/
def execution_completed (self : TaskId) (cell_mappings : Option Nat) (duration : Nat)
    (tracked : List RawVc) (w : Backend) : Option (Backend × Bool × List Effect) :=
  let d := w.tasks self
  let ed := d.execution_data
  let ed :=
    match cell_mappings with
    | some cm => { ed with cell_mappings := cm }
    | none => ed
  let ed := { ed with dependencies := tracked }
  let d := { d with execution_data := ed }
  let st := { d.state with total_duration := d.state.total_duration + duration }
  let onceJob : List Effect :=
    match d.ty with
    | .Once => [.backgroundJob (.RemoveRootScope self)]
    | _ => []
  match st.state_type with
  | .InProgress =>
      let st := { st with state_type := .Done }
      let w := w.setTask self { d with state := st }
      let w := decrementUnfinishedFold st.scopes.iterList w
      some (w, false, [.fireEvent self] ++ onceJob)
  | .InProgressDirty =>
      let active := st.scopes.iterList.any fun s => (w.scopes s).is_active
      let st :=
        if active then { st with state_type := .Scheduled }
        else { st with state_type := .Dirty }
      let w := w.setTask self { d with state := st }
      let w := clear_dependencies self w
      some (w, active, onceJob)
  | .Dirty | .Scheduled | .Done => none

/-- `Task::make_dirty` from `task.rs`: a no-op for `Once` tasks; otherwise
clear dependencies and transition per the state machine. -/
def make_dirty (self : TaskId) (w : Backend) : Backend × List Effect :=
  let d := w.tasks self
  match d.ty with
  | .Once => (w, [])
  | _ =>
      let w := clear_dependencies self w
      let d := w.tasks self
      match d.state.state_type with
      | .Dirty | .Scheduled | .InProgressDirty => (w, [])
      | .Done =>
          let fold := d.state.scopes.iterList.foldl
            (fun (p : Backend × Bool) s =>
              let sc := (p.1.scopes s).increment_unfinished_tasks
              if sc.is_active then (p.1.setScope s sc, true)
              else (p.1.setScope s (sc.add_dirty_task self), p.2))
            (w, false)
          let (w, active) := fold
          if active then
            (w.setTask self { d with state := { d.state with state_type := .Scheduled } },
             [.schedule self])
          else
            (w.setTask self { d with state := { d.state with state_type := .Dirty } }, [])
      | .InProgress =>
          (w.setTask self { d with state := { d.state with state_type := .InProgressDirty } },
           [])

/-- `Task::invalidate` from `task.rs`: invalidation is `make_dirty`. -/
def invalidate (self : TaskId) (w : Backend) : Backend × List Effect :=
  make_dirty self w

/-- `Task::add_self_to_new_scope` from `task.rs`: bump the scope's
counters for this task and park or schedule it when dirty. -/
def add_self_to_new_scope (self : TaskId) (st : TaskState) (id : TaskScopeId) (w : Backend) :
    TaskState × Backend × Bool :=
  let sc := (w.scopes id).increment_tasks
  if st.state_type = .Done then (st, w.setScope id sc, false)
  else
    let sc := sc.increment_unfinished_tasks
    if st.state_type = .Dirty then
      if sc.is_active then ({ st with state_type := .Scheduled }, w.setScope id sc, true)
      else (st, w.setScope id (sc.add_dirty_task self), false)
    else (st, w.setScope id sc, false)

/-- `Task::add_to_scope_internal_shallow` from `task.rs`: counted insert
into the Inner bag (or child-edge insert for a Root task), promotion-job
trigger at bag size 100, counter updates, and the children batch for the
caller to recurse into. -/
def add_to_scope_internal_shallow (self : TaskId) (id : TaskScopeId)
    (will_be_optimized : Bool) (w : Backend) :
    Backend × Option (List TaskId × Bool) × List Effect :=
  let d := w.tasks self
  match d.state.scopes with
  | .Root root =>
      if root ≠ id then
        let r := (w.scopes id).add_child root
        let w := w.setScope id r.1
        (if r.2 then w.increase_scope_active root else w, none, [])
      else (w, none, [])
  | .Inner list =>
      let r := scopeListAdd list id
      if r.2 then
        let trigger := !will_be_optimized && r.1.length == 100
        let wbo := if trigger then true else will_be_optimized
        let jobEffects : List Effect :=
          if trigger then [.backgroundJob (.MakeRootScoped self)] else []
        let children := d.state.children
        let a := add_self_to_new_scope self { d.state with scopes := .Inner r.1 } id w
        let w := a.2.1.setTask self { d with state := a.1 }
        let effects := jobEffects ++ (if a.2.2 then [Effect.schedule self] else [])
        if children.isEmpty then (w, none, effects)
        else (w, some (children, wbo), effects)
      else
        (w.setTask self { d with state := { d.state with scopes := .Inner r.1 } }, none, [])

/-- `Task::remove_from_scope_internal_shallow` from `task.rs`: counted
removal from the Inner bag; on `Removed` the scope counters drop and the
children batch is returned.  `none` models the fail-stop on `NoEntry`. -/
def remove_from_scope_internal_shallow (self : TaskId) (id : TaskScopeId)
    (will_be_optimized : Bool) (w : Backend) :
    Option (Backend × Option (List TaskId × Bool)) :=
  let d := w.tasks self
  match d.state.scopes with
  | .Root root =>
      if root ≠ id then
        let r := (w.scopes id).remove_child root
        let w := w.setScope id r.1
        some (if r.2 then w.decrease_scope_active root else w, none)
      else some (w, none)
  | .Inner list =>
      let r := scopeListRemove list id
      match r.2 with
      | .NoEntry => none
      | .Decreased =>
          some (w.setTask self { d with state := { d.state with scopes := .Inner r.1 } },
                none)
      | .Removed =>
          let sc := w.scopes id
          let sc := if d.state.state_type = .Done then sc else sc.decrement_unfinished_tasks
          let sc := sc.decrement_tasks
          let w := w.setScope id sc
          let w := w.setTask self { d with state := { d.state with scopes := .Inner r.1 } }
          let children := d.state.children
          some (w, if children.isEmpty then none else some (children, will_be_optimized))

end Task

/-- The queue split of `run_add_to_scope_queue`: pop frames while the queue
is longer than 2 and the pending count exceeds the goal, collecting the
popped frames.  Returns the remaining queue, its pending count and the
split-off frames. -/
def splitQueue : List (List TaskId × Bool) → Nat → Nat →
    List (List TaskId × Bool) × Nat × List (List TaskId × Bool)
  | a :: b :: c :: rest, qsize, goal =>
      if goal < qsize then
        let (q, qs, split) := splitQueue (b :: c :: rest) (qsize - a.1.length) goal
        (q, qs, a :: split)
      else (a :: b :: c :: rest, qsize, [])
  | queue, qsize, _ => (queue, qsize, [])

/-- One child of one round of `run_add_to_scope_queue`: the shallow add,
pushing a returned children batch onto the queue and appending its
effects. -/
def addScopeQueueStep (id : TaskScopeId) (wbo : Bool)
    (acc : Backend × List (List TaskId × Bool) × Nat × List Effect) (child : TaskId) :
    Backend × List (List TaskId × Bool) × Nat × List Effect :=
  let r := Task.add_to_scope_internal_shallow child id wbo acc.1
  match r.2.1 with
  | some item =>
      (r.1, item :: acc.2.1, acc.2.2.1 + item.1.length, acc.2.2.2 ++ r.2.2)
  | none => (r.1, acc.2.1, acc.2.2.1, acc.2.2.2 ++ r.2.2)

/-- One round of `run_add_to_scope_queue`: shallowly add every child of
the popped frame, pushing returned children batches onto the queue and
accumulating effects. -/
def addScopeQueueRound (id : TaskScopeId) (wbo : Bool) (children : List TaskId)
    (w : Backend) (queue : List (List TaskId × Bool)) (qsize : Nat) :
    Backend × List (List TaskId × Bool) × Nat × List Effect :=
  children.foldl (addScopeQueueStep id wbo) (w, queue, qsize, [])

/-- `run_add_to_scope_queue` from `task.rs`: bounded work-queue traversal
adding a subgraph to a scope, splitting half of the queue off as a
foreground job when it holds more than 4 frames and over 100 pending
children.  The queue is a stack (head is the top); `fuel` bounds the
iteration count, `none` meaning the bound was exhausted. -/
def run_add_to_scope_queue (fuel : Nat) (queue : List (List TaskId × Bool))
    (queue_size : Nat) (id : TaskScopeId) (w : Backend) : Option (Backend × List Effect) :=
  match fuel with
  | 0 => none
  | fuel + 1 =>
      match queue with
      | [] => some (w, [])
      | (children, wbo) :: rest =>
          let step := addScopeQueueRound id wbo children w rest (queue_size - children.length)
          let w := step.1
          let queue := step.2.1
          let qsize := step.2.2.1
          let effects := step.2.2.2
          let next :=
            if 4 < queue.length && 100 < qsize then
              let sp := splitQueue queue qsize (qsize / 2)
              (sp.1, sp.2.1,
               effects ++
                 [Effect.foregroundJob (.AddToScopeQueue sp.2.2 (qsize - sp.2.1) id)])
            else (queue, qsize, effects)
          match run_add_to_scope_queue fuel next.1 next.2.1 id w with
          | some res => some (res.1, next.2.2 ++ res.2)
          | none => none

/-- `Task::add_to_scope_internal` from `task.rs`: the shallow add followed
by the queue traversal over the returned children batch. -/
def Task.add_to_scope_internal (fuel : Nat) (self : TaskId) (id : TaskScopeId)
    (will_be_optimized : Bool) (w : Backend) : Option (Backend × List Effect) :=
  let r := Task.add_to_scope_internal_shallow self id will_be_optimized w
  match r.2.1 with
  | some item =>
      match run_add_to_scope_queue fuel [item] item.1.length id r.1 with
      | some res => some (res.1, r.2.2 ++ res.2)
      | none => none
  | none => some (r.1, r.2.2)

/-- One old scope of the promotion loop of `make_root_scoped_internal`:
add the fresh root scope as its child with the old multiplicity and bump
the active counter when it reported itself active. -/
def addChildCountStep (root_scope : TaskScopeId) (p : Backend × Nat)
    (entry : TaskScopeId × Nat) : Backend × Nat :=
  let r := (p.1.scopes entry.1).add_child_count root_scope entry.2
  (p.1.setScope entry.1 r.1, if r.2 then p.2 + 1 else p.2)

/-- The promotion loop of `make_root_scoped_internal` over the old scopes:
add the fresh root scope as a child of each, with the old multiplicity,
and count how many of those scopes reported themselves active. -/
def addChildCountFold (scopes : List (TaskScopeId × Nat)) (root_scope : TaskScopeId)
    (w : Backend) : Backend × Nat :=
  scopes.foldl (addChildCountStep root_scope) (w, 0)

/-- The per-scope update of the removal loop of
`make_root_scoped_internal`: decrement `unfinished_tasks` when the task
(at this point of the promotion) is not Done, drop it from `dirty_tasks`
when it is Dirty, and decrement `tasks`. -/
def removeSelfScopeUpdate (self : TaskId) (stt : TaskStateType) (sc : Scope) : Scope :=
  let sc :=
    if stt = .Done then sc
    else
      let sc := sc.decrement_unfinished_tasks
      if stt = .Dirty then sc.remove_dirty_task self else sc
  sc.decrement_tasks

/-- The removal loop of `make_root_scoped_internal` over the old scopes:
drop this task from each old scope's counters (and, when the task is
dirty at this point, from its dirty set). -/
def removeSelfFromOldScopes (self : TaskId) (stt : TaskStateType)
    (scopes : List (TaskScopeId × Nat)) (w : Backend) : Backend :=
  scopes.foldl
    (fun w entry => w.setScope entry.1 (removeSelfScopeUpdate self stt (w.scopes entry.1)))
    w

/-- One child of the children loop of `make_root_scoped_internal`. -/
def addChildStep (fuel : Nat) (id : TaskScopeId) (acc : Option (Backend × List Effect))
    (child : TaskId) : Option (Backend × List Effect) :=
  match acc with
  | none => none
  | some p =>
      match Task.add_to_scope_internal fuel child id true p.1 with
      | some q => some (q.1, p.2 ++ q.2)
      | none => none

/-- The children loop of `make_root_scoped_internal`: add each child (and,
through the queue, its descendants) to the fresh root scope with
`will_be_optimized = true`. -/
def addChildrenToScope (fuel : Nat) (children : List TaskId) (id : TaskScopeId)
    (w : Backend) : Option (Backend × List Effect) :=
  children.foldl (addChildStep fuel id) (some (w, []))

/-- The straight-line part of `make_root_scoped_internal`, run under the
state lock: allocate the fresh root scope, make it a child of every old
scope (counting the active ones), bump its active count, replace the
task's membership, add the task to the new scope and drop it from the
old ones.  Returns the new backend, the task's new state, and the
`schedule_self` flag. -/
def promoteShallow (self : TaskId) (list : List (TaskScopeId × Nat)) (w : Backend) :
    Backend × TaskState × Bool :=
  let d := w.tasks self
  let root_scope := w.next_scope
  let w1 := ({ w with next_scope := w.next_scope + 1 }).setScope root_scope Scope.fresh
  let f := addChildCountFold list root_scope w1
  let w2 := if 0 < f.2 then f.1.increase_scope_active_by root_scope f.2 else f.1
  let a := Task.add_self_to_new_scope self { d.state with scopes := .Root root_scope }
    root_scope w2
  let w3 := removeSelfFromOldScopes self a.1.state_type list a.2.1
  (w3.setTask self { d with state := a.1 }, a.1, a.2.2)

/-- `Task::make_root_scoped_internal` from `task.rs`: promote an Inner task
to a fresh root scope.  The returned flag is `true` when the function
returned `Some(state)` (kept the lock, made no deep change); `none` means
the traversal fuel ran out. -/
def Task.make_root_scoped_internal (fuel : Nat) (self : TaskId) (w : Backend) :
    Option (Backend × Bool × List Effect) :=
  let d := w.tasks self
  match d.state.scopes with
  | .Root _ => some (w, true, [])
  | .Inner scopes =>
      let root_scope := w.next_scope
      let p := promoteShallow self scopes w
      let st := p.2.1
      let schedule_self := p.2.2
      if !st.children.isEmpty || schedule_self then
        match addChildrenToScope fuel st.children root_scope p.1 with
        | none => none
        | some q =>
            let effects := q.2 ++ (if schedule_self then [Effect.schedule self] else [])
            let effects := effects ++
              [Effect.backgroundJob (.RemoveFromScopes st.children (scopes.map Prod.fst) true)]
            some (q.1, false, effects)
      else some (p.1, true, [])

/-! ## The auto-hash-map set (`set.rs`, over an `AutoMap` modelled from the
spec) -/

/-- Modelled from the spec: `AutoMap` (`map.rs` is not under `src/`) is
"functionally equivalent to a mapping with order-independent semantics";
modelled as an association list whose keys stay duplicate-free under the
operations below. -/
structure AutoMap (V : Type) where
  entries : List (Nat × V)
deriving DecidableEq, Repr

/-- Modelled from the spec: `AutoMap::insert` stores the value under the
key and returns the previously stored value, if any. -/
def AutoMap.insert (m : AutoMap V) (k : Nat) (v : V) : AutoMap V × Option V :=
  match m.entries.lookup k with
  | some old =>
      (⟨m.entries.map fun e => if e.1 = k then (e.1, v) else e⟩, some old)
  | none => (⟨m.entries ++ [(k, v)]⟩, none)

/-- Modelled from the spec: `AutoMap::remove` drops the key's entry and
returns the value that was stored, if any. -/
def AutoMap.remove (m : AutoMap V) (k : Nat) : AutoMap V × Option V :=
  match m.entries.lookup k with
  | some old => (⟨m.entries.filter fun e => !(e.1 == k)⟩, some old)
  | none => (m, none)

/-- Modelled from the spec: `AutoMap::contains_key`. -/
def AutoMap.contains_key (m : AutoMap V) (k : Nat) : Bool :=
  (m.entries.lookup k).isSome

/-- Modelled from the spec: `AutoMap::len`. -/
def AutoMap.len (m : AutoMap V) : Nat := m.entries.length

/-- Modelled from the spec: `AutoMap::is_empty`. -/
def AutoMap.is_empty (m : AutoMap V) : Bool := m.entries.isEmpty

/-- `AutoSet` from `set.rs`: a set as an `AutoMap` to unit. -/
structure AutoSet where
  map : AutoMap Unit
deriving DecidableEq, Repr

/-- `AutoSet::new`. -/
def AutoSet.new : AutoSet := ⟨⟨[]⟩⟩

/-- `AutoSet::insert` from `set.rs`: `map.insert(key, ()).is_none()`. -/
def AutoSet.insert (s : AutoSet) (k : Nat) : AutoSet × Bool :=
  let p := s.map.insert k ()
  (⟨p.1⟩, p.2.isNone)

/-- `AutoSet::remove` from `set.rs`: `map.remove(key).is_some()`. -/
def AutoSet.remove (s : AutoSet) (k : Nat) : AutoSet × Bool :=
  let p := s.map.remove k
  (⟨p.1⟩, p.2.isSome)

/-- `AutoSet::contains` from `set.rs`. -/
def AutoSet.contains (s : AutoSet) (k : Nat) : Bool := s.map.contains_key k

/-- `AutoSet::len` from `set.rs`. -/
def AutoSet.len (s : AutoSet) : Nat := s.map.len

/-- `AutoSet::is_empty` from `set.rs`. -/
def AutoSet.is_empty (s : AutoSet) : Bool := s.map.is_empty

/-- The refinement reference for C10, following the spec's words: a
standard finite set, as a duplicate-free list of keys. -/
abbrev SpecSet := List Nat

/-- Reference-set insert: report whether the key was absent, then add it. -/
def SpecSet.insert (s : SpecSet) (k : Nat) : SpecSet × Bool :=
  if k ∈ s then (s, false) else (s ++ [k], true)

/-- Reference-set remove: report whether the key was present, then drop
it. -/
def SpecSet.remove (s : SpecSet) (k : Nat) : SpecSet × Bool :=
  if k ∈ s then (s.filter fun x => !(x == k), true) else (s, false)

/-- One mutating operation of the C10 refinement run. -/
inductive SetOp
  | insert (k : Nat)
  | remove (k : Nat)
deriving DecidableEq, Repr

/-- Run a sequence of operations on an `AutoSet`, collecting the returned
booleans. -/
def runAuto : List SetOp → AutoSet → AutoSet × List Bool
  | [], s => (s, [])
  | op :: ops, s =>
      let p :=
        match op with
        | .insert k => s.insert k
        | .remove k => s.remove k
      let q := runAuto ops p.1
      (q.1, p.2 :: q.2)

/-- Run the same sequence of operations on the reference set. -/
def runSpec : List SetOp → SpecSet → SpecSet × List Bool
  | [], s => (s, [])
  | op :: ops, s =>
      let p :=
        match op with
        | .insert k => s.insert k
        | .remove k => s.remove k
      let q := runSpec ops p.1
      (q.1, p.2 :: q.2)

/-- The key list an `AutoSet` currently holds (the abstraction map of the
C10 refinement). -/
def AutoSet.keys (s : AutoSet) : List Nat := s.map.entries.map Prod.fst

/-! ## Concrete fixtures used by the witnesses and counterexamples -/

/-- The `Default` task state of `task.rs`: `Dirty`, empty Inner scope bag,
no children, empty output. -/
def baseState : TaskState :=
  { scopes := .Inner [], state_type := .Dirty, children := [], output := ⟨.empty, 0, []⟩,
    created_cells := [], executions := 0, total_duration := 0 }

/-- A cached native task in its initial state. -/
def baseTask : TaskData :=
  { ty := .Native 0, state := baseState, execution_data := { dependencies := [], cell_mappings := 0 } }

/-- A backend whose every task is `baseTask` and every scope is fresh. -/
def baseBackend : Backend :=
  { tasks := fun _ => baseTask, scopes := fun _ => Scope.fresh, next_scope := 50 }

/-- Projection: the state type of a task in an optional
`(backend, flag, effects)` result. -/
def stateTypeAfter (r : Option (Backend × Bool × List Effect)) (t : TaskId) :
    Option TaskStateType :=
  match r with
  | some p => some (p.1.tasks t).state.state_type
  | none => none

/-- Projection: the returned flag of an optional
`(backend, flag, effects)` result. -/
def flagAfter (r : Option (Backend × Bool × List Effect)) : Option Bool :=
  match r with
  | some p => some p.2.1
  | none => none

/-- Projection: a scope's `unfinished_tasks` in an optional
`(backend, flag, effects)` result. -/
def scopeUnfinishedAfter (r : Option (Backend × Bool × List Effect)) (s : TaskScopeId) :
    Option Nat :=
  match r with
  | some p => some ((p.1.scopes s).unfinished_tasks)
  | none => none

/-- Projection: a task's installed dependencies in an optional
`(backend, flag, effects)` result. -/
def depsAfter (r : Option (Backend × Bool × List Effect)) (t : TaskId) :
    Option (List RawVc) :=
  match r with
  | some p => some (p.1.tasks t).execution_data.dependencies
  | none => none

/-- Projection: a scope's dirty set in an optional
`(backend, recursion)` result of the shallow scope removal. -/
def scopeDirtyAfterRemove (r : Option (Backend × Option (List TaskId × Bool)))
    (s : TaskScopeId) : Option (List TaskId) :=
  match r with
  | some p => some ((p.1.scopes s).dirty_tasks)
  | none => none

/-- Projection: a scope's `tasks` counter in an optional
`(backend, recursion)` result of the shallow scope removal. -/
def scopeTasksAfterRemove (r : Option (Backend × Option (List TaskId × Bool)))
    (s : TaskScopeId) : Option Nat :=
  match r with
  | some p => some ((p.1.scopes s).tasks)
  | none => none

/-- Projection: a task's scope membership in an optional
`(backend, flag, effects)` result. -/
def scopesAfter (r : Option (Backend × Bool × List Effect)) (t : TaskId) :
    Option TaskScopes :=
  match r with
  | some p => some (p.1.tasks t).state.scopes
  | none => none

/-- Projection: a scope's whole record in an optional
`(backend, flag, effects)` result. -/
def scopeAfter (r : Option (Backend × Bool × List Effect)) (s : TaskScopeId) :
    Option Scope :=
  match r with
  | some p => some (p.1.scopes s)
  | none => none

/-- C4 fixture: an output that already links `taskOutput 0` and has a
dependent reader. -/
def c4Output : Output := ⟨.link (.taskOutput 0), 5, [7]⟩

/-- A backend whose task 0 is Scheduled (fixture for C2). -/
def wScheduled : Backend :=
  baseBackend.setTask 0 { baseTask with state := { baseState with state_type := .Scheduled } }

/-- A backend whose task 0 is InProgressDirty with a linked output and a
dependent (fixture for C5). -/
def wInProgressDirty : Backend :=
  baseBackend.setTask 0
    { baseTask with state :=
        { baseState with
          state_type := .InProgressDirty
          output := ⟨.link (.taskOutput 2), 1, [4]⟩ } }

/-- A backend whose task 0 is a `Once` task (fixture for C7). -/
def wOnce : Backend :=
  baseBackend.setTask 0 { baseTask with ty := .Once }

/-- C3 fixture: a Dirty task 0 whose Inner bag holds scope 4 with count 1,
while scope 4 carries it in `dirty_tasks` and counts it. -/
def wRemove : Backend :=
  (baseBackend.setTask 0
      { baseTask with state := { baseState with scopes := .Inner [(4, 1)] } }).setScope 4
    { active_count := 0, children := [], dirty_tasks := [0], tasks := 1,
      unfinished_tasks := 1 }

/-- C8 fixture: an Inner bag holding 99 distinct scopes, each with
count 1. -/
def c8List : List (TaskScopeId × Nat) := (List.range 99).map fun i => (i, 1)

/-- C8 fixture: a task 0 whose Inner bag is `c8List`. -/
def wC8 : Backend :=
  baseBackend.setTask 0 { baseTask with state := { baseState with scopes := .Inner c8List } }

/-- What a subgraph add to scope `id` may NOT change: every other scope's
children, dirty set and task counters, the target scope's active count,
any task's Root membership, and the scope id allocator. -/
def AddPreserves (id : TaskScopeId) (w w' : Backend) : Prop :=
  (∀ s, s ≠ id →
      (w'.scopes s).children = (w.scopes s).children
      ∧ (w'.scopes s).dirty_tasks = (w.scopes s).dirty_tasks
      ∧ (w'.scopes s).tasks = (w.scopes s).tasks
      ∧ (w'.scopes s).unfinished_tasks = (w.scopes s).unfinished_tasks)
  ∧ (w'.scopes id).active_count = (w.scopes id).active_count
  ∧ (∀ t r, (w.tasks t).state.scopes = .Root r → (w'.tasks t).state.scopes = .Root r)
  ∧ w'.next_scope = w.next_scope

/-- The number of old scopes a promotion observes as active. -/
def activeOldScopes (list : List (TaskScopeId × Nat)) (w : Backend) : Nat :=
  (list.filter fun p => (w.scopes p.1).is_active).length

/-- Projection: a scope's `active_count` in an optional
`(backend, flag, effects)` result. -/
def scopeActiveAfter (r : Option (Backend × Bool × List Effect)) (s : TaskScopeId) :
    Option Nat :=
  match r with
  | some p => some ((p.1.scopes s).active_count)
  | none => none

/-- C6 fixture: a task 0 that already owns root scope 7. -/
def wRootFix : Backend :=
  baseBackend.setTask 0 { baseTask with state := { baseState with scopes := .Root 7 } }

/-- C6 fixture: a Done task 0 in Inner scopes 1 (count 2, active) and
2 (count 1, inactive), both counting it. -/
def wC6 : Backend :=
  ((baseBackend.setTask 0
      { baseTask with state :=
          { baseState with
            state_type := .Done
            scopes := .Inner [(1, 2), (2, 1)] } }).setScope 1
    { Scope.fresh with active_count := 1, tasks := 1 }).setScope 2
    { Scope.fresh with tasks := 1 }

/-- C1 fixture: task 0 running (`InProgress`) inside scopes 1 and 2, each
counting it as unfinished. -/
def wC1 : Backend :=
  ((baseBackend.setTask 0
      { baseTask with state :=
          { baseState with
            state_type := .InProgress
            scopes := .Inner [(1, 1), (2, 1)] } }).setScope 1
    { Scope.fresh with tasks := 1, unfinished_tasks := 1 }).setScope 2
    { Scope.fresh with tasks := 1, unfinished_tasks := 1 }

/-! ## General lemmas -/

@[simp] theorem Backend.setTask_tasks (w : Backend) (t : TaskId) (d : TaskData) (t' : TaskId) :
    (w.setTask t d).tasks t' = if t' = t then d else w.tasks t' := rfl

@[simp] theorem Backend.setTask_scopes (w : Backend) (t : TaskId) (d : TaskData) :
    (w.setTask t d).scopes = w.scopes := rfl

@[simp] theorem Backend.setTask_next (w : Backend) (t : TaskId) (d : TaskData) :
    (w.setTask t d).next_scope = w.next_scope := rfl

@[simp] theorem Backend.setScope_scopes (w : Backend) (s : TaskScopeId) (sc : Scope)
    (s' : TaskScopeId) :
    (w.setScope s sc).scopes s' = if s' = s then sc else w.scopes s' := rfl

@[simp] theorem Backend.setScope_tasks (w : Backend) (s : TaskScopeId) (sc : Scope) :
    (w.setScope s sc).tasks = w.tasks := rfl

@[simp] theorem Backend.setScope_next (w : Backend) (s : TaskScopeId) (sc : Scope) :
    (w.setScope s sc).next_scope = w.next_scope := rfl

theorem insertTask_mem (l : List TaskId) (t : TaskId) : t ∈ insertTask l t := by
  unfold insertTask
  split
  · assumption
  · simp

theorem sameTarget_self (x : RawVc) : sameTarget x x = true := by
  cases x <;> simp [sameTarget]

/-! ## C9: `Output.read` -/

/-- C9: `Output.read reader` inserts the reader into `dependent_tasks` —
also when the read then fails — and returns the handle exactly when the
content is a `Link`, the stored shared error when it is an `Error`, and
the "empty" error when it is `Empty`; the read changes neither the
content nor the updates counter. -/
theorem claim_c9_output_read (o : Output) (reader : TaskId) :
    reader ∈ (o.read reader).1.dependent_tasks
    ∧ (o.read reader).1.dependent_tasks = insertTask o.dependent_tasks reader
    ∧ (o.read reader).1.content = o.content
    ∧ (o.read reader).1.updates = o.updates
    ∧ (o.content = .empty → (o.read reader).2 = .error .emptyOutput)
    ∧ (∀ err, o.content = .error err → (o.read reader).2 = .error (.shared err))
    ∧ (∀ target, o.content = .link target → (o.read reader).2 = .ok target) := by
  refine ⟨insertTask_mem o.dependent_tasks reader, rfl, rfl, rfl, ?_, ?_, ?_⟩
  · intro h
    simp [Output.read, Output.read_untracked, h]
  · intro err h
    simp [Output.read, Output.read_untracked, h]
  · intro target h
    simp [Output.read, Output.read_untracked, h]

/-- C9 witness: reading an empty output registers the reader and surfaces
the "empty" error. -/
theorem claim_c9_output_read_witness :
    (⟨.empty, 0, []⟩ : Output).content = .empty
    ∧ ((⟨.empty, 0, []⟩ : Output).read 3).2 = .error .emptyOutput :=
  ⟨rfl, (claim_c9_output_read ⟨.empty, 0, []⟩ 3).2.2.2.2.1 rfl⟩

/-! ## C4: `Output.link` notification discipline -/

/-- C4 counterexample: when the output already links an equal target
(`taskOutput 0`), two successive `link` calls dispatch zero
notifications, not one, and leave `updates` unchanged — refuting the
claim's universal "exactly one notification" for every output with a
non-empty dependent set. -/
theorem claim_c4_counterexample :
    c4Output.dependent_tasks ≠ []
    ∧ (Output.linkTwice c4Output (.taskOutput 0)).2.length = 0
    ∧ (Output.linkTwice c4Output (.taskOutput 0)).1.updates = c4Output.updates := by
  decide

/-- C4 (amended): for an output with a non-empty dependent set, two
successive `link x` calls dispatch exactly one notification and one
update unless the content is already a `Link` whose target equals `x`
(same task id, and same cell index for cell handles), in which case both
calls are no-ops; the second link never notifies; a single link over a
different target, or over `Empty` or `Error` content, always replaces
and notifies. -/
theorem claim_c4_link_notifications (o : Output) (x : RawVc)
    (hdep : o.dependent_tasks ≠ []) :
    (o.linkIsNoop x = false →
        (Output.linkTwice o x).2.length = 1
        ∧ (Output.linkTwice o x).1.updates = o.updates + 1
        ∧ (Output.linkTwice o x).1.content = .link x)
    ∧ (o.linkIsNoop x = true → Output.linkTwice o x = (o, []))
    ∧ ((o.link x).1.link x = ((o.link x).1, []))
    ∧ (o.linkIsNoop x = false →
        (o.link x).2.length = 1
        ∧ (o.link x).1.updates = o.updates + 1
        ∧ (o.link x).1.content = .link x) := by
  rcases o with ⟨c, u, dt⟩
  have hne : dt.isEmpty = false := by
    cases h : dt with
    | nil => exact absurd h hdep
    | cons a l => rfl
  cases c with
  | empty =>
      refine ⟨?_, ?_, ?_, ?_⟩
      · intro _
        simp [Output.linkTwice, Output.link, Output.assign, hne, sameTarget_self]
      · intro h
        simp [Output.linkIsNoop] at h
      · simp [Output.link, Output.assign, sameTarget_self]
      · intro _
        simp [Output.link, Output.assign, hne]
  | link old =>
      cases hst : sameTarget old x with
      | true =>
          refine ⟨?_, ?_, ?_, ?_⟩
          · intro h
            simp [Output.linkIsNoop, hst] at h
          · intro _
            simp [Output.linkTwice, Output.link, hst]
          · simp [Output.link, hst]
          · intro h
            simp [Output.linkIsNoop, hst] at h
      | false =>
          refine ⟨?_, ?_, ?_, ?_⟩
          · intro _
            simp [Output.linkTwice, Output.link, Output.assign, hne, hst, sameTarget_self]
          · intro h
            simp [Output.linkIsNoop, hst] at h
          · simp [Output.link, Output.assign, hst, sameTarget_self]
          · intro _
            simp [Output.link, Output.assign, hne, hst]
  | error err =>
      refine ⟨?_, ?_, ?_, ?_⟩
      · intro _
        simp [Output.linkTwice, Output.link, Output.assign, hne, sameTarget_self]
      · intro h
        simp [Output.linkIsNoop] at h
      · simp [Output.link, Output.assign, sameTarget_self]
      · intro _
        simp [Output.link, Output.assign, hne]

/-- C4 witness: linking a fresh target into an empty output with one
dependent dispatches exactly one notification over the two calls. -/
theorem claim_c4_link_notifications_witness :
    (⟨.empty, 0, [3]⟩ : Output).dependent_tasks ≠ []
    ∧ (Output.linkTwice ⟨.empty, 0, [3]⟩ (.taskOutput 1)).2.length = 1 :=
  ⟨by decide,
   ((claim_c4_link_notifications ⟨.empty, 0, [3]⟩ (.taskOutput 1) (by decide)).1
      (by decide)).1⟩

/-! ## C7: Once tasks never become dirty -/

/-- C7: invalidation (`make_dirty`) of a `Once` task is a complete no-op:
the backend (hence the task's state type, scopes, output and
dependencies) is unchanged and no effect is requested, so a `Once` task
never reaches `Dirty` or `InProgressDirty` through invalidation. -/
theorem claim_c7_once_never_dirty (w : Backend) (self : TaskId)
    (h : (w.tasks self).ty = .Once) :
    Task.invalidate self w = (w, []) ∧ Task.make_dirty self w = (w, []) := by
  have hm : Task.make_dirty self w = (w, []) := by
    simp [Task.make_dirty, h]
  exact ⟨hm, hm⟩

/-- C7 witness: invalidating the concrete `Once` task changes nothing. -/
theorem claim_c7_once_never_dirty_witness :
    (wOnce.tasks 0).ty = .Once ∧ Task.invalidate 0 wOnce = (wOnce, []) :=
  ⟨by decide, (claim_c7_once_never_dirty wOnce 0 (by decide)).1⟩

/-! ## C2: `execution_started` -/

/-- C2 counterexample: in state `Dirty`, `execution_started` does not
return false and leave the state unchanged as the claim says — it
fail-stops (the Rust source calls `panic!` there, modelled by `none`). -/
theorem claim_c2_counterexample :
    (baseBackend.tasks 0).state.state_type = .Dirty
    ∧ Task.execution_started 0 baseBackend = none :=
  ⟨by decide, rfl⟩

/-- C2 (amended): `execution_started` returns true and moves the task to
`InProgress` (incrementing `executions`) exactly when the state is
`Scheduled`; in `Done`, `InProgress` and `InProgressDirty` it returns
false and changes nothing; in `Dirty` it fail-stops (panics) rather
than returning false. -/
theorem claim_c2_execution_started (w : Backend) (self : TaskId) :
    ((w.tasks self).state.state_type = .Done ∨
      (w.tasks self).state.state_type = .InProgress ∨
      (w.tasks self).state.state_type = .InProgressDirty →
        Task.execution_started self w = some (w, false, []))
    ∧ ((w.tasks self).state.state_type = .Scheduled →
        ∃ w' effects, Task.execution_started self w = some (w', true, effects)
          ∧ (w'.tasks self).state.state_type = .InProgress
          ∧ (w'.tasks self).state.executions = (w.tasks self).state.executions + 1
          ∧ (∀ t, t ≠ self → w'.tasks t = w.tasks t)
          ∧ w'.scopes = w.scopes)
    ∧ ((w.tasks self).state.state_type = .Dirty →
        Task.execution_started self w = none) := by
  refine ⟨?_, ?_, ?_⟩
  · intro h
    rcases h with h | h | h <;> simp [Task.execution_started, h]
  · intro h
    simp only [Task.execution_started, h]
    split
    · exact ⟨_, _, rfl, by simp, by simp, fun t ht => by simp [ht], rfl⟩
    · exact ⟨_, _, rfl, by simp, by simp, fun t ht => by simp [ht], rfl⟩
  · intro h
    simp [Task.execution_started, h]

/-- C2 witness: starting the concrete Scheduled task moves it to
`InProgress`. -/
theorem claim_c2_execution_started_witness :
    (wScheduled.tasks 0).state.state_type = .Scheduled
    ∧ stateTypeAfter (Task.execution_started 0 wScheduled) 0 = some .InProgress := by
  refine ⟨by decide, ?_⟩
  obtain ⟨w', effects, heq, hstate, -⟩ :=
    (claim_c2_execution_started wScheduled 0).2.1 (by decide)
  simp [stateTypeAfter, heq, hstate]

/-! ## C5: `execution_result` -/

/-- C5: `execution_result` in `InProgress` links the output on `Ok` and
sets the error on `Err` (touching no other task); in `InProgressDirty`
it drops the result silently, leaving the whole backend — in particular
the output's content, updates counter and dependents — untouched; in
`Dirty`, `Scheduled` or `Done` it fail-stops. -/
theorem claim_c5_execution_result (w : Backend) (self : TaskId) :
    (∀ target, (w.tasks self).state.state_type = .InProgress →
        Task.execution_result self (.ok target) w =
          some (w.setTask self
                  { w.tasks self with state :=
                      { (w.tasks self).state with
                        output := ((w.tasks self).state.output.link target).1 } },
                ((w.tasks self).state.output.link target).2.map .notify))
    ∧ (∀ err, (w.tasks self).state.state_type = .InProgress →
        Task.execution_result self (.error err) w =
          some (w.setTask self
                  { w.tasks self with state :=
                      { (w.tasks self).state with
                        output := ((w.tasks self).state.output.error err).1 } },
                ((w.tasks self).state.output.error err).2.map .notify))
    ∧ ((w.tasks self).state.state_type = .InProgressDirty →
        ∀ result, Task.execution_result self result w = some (w, []))
    ∧ (∀ result,
        (w.tasks self).state.state_type = .Dirty ∨
        (w.tasks self).state.state_type = .Scheduled ∨
        (w.tasks self).state.state_type = .Done →
          Task.execution_result self result w = none) := by
  refine ⟨?_, ?_, ?_, ?_⟩
  · intro target h
    rcases hlnk : (w.tasks self).state.output.link target with ⟨o, notifs⟩
    simp [Task.execution_result, h, hlnk]
  · intro err h
    rcases herr : (w.tasks self).state.output.error err with ⟨o, notifs⟩
    simp [Task.execution_result, h, herr]
  · intro h result
    cases result <;> simp [Task.execution_result, h]
  · intro result h
    rcases h with h | h | h <;> cases result <;> simp [Task.execution_result, h]

/-- C5 witness: an `Ok` result delivered to the concrete
`InProgressDirty` task is dropped without any change or notification. -/
theorem claim_c5_execution_result_witness :
    (wInProgressDirty.tasks 0).state.state_type = .InProgressDirty
    ∧ Task.execution_result 0 (.ok (.taskOutput 9)) wInProgressDirty =
        some (wInProgressDirty, []) :=
  ⟨by decide,
   (claim_c5_execution_result wInProgressDirty 0).2.2.1 (by decide) (.ok (.taskOutput 9))⟩

/-! ## C3: shallow scope removal -/

/-- C3 counterexample: the concrete Dirty task 0 sits in scope 4's
`dirty_tasks`; its count-1-to-0 removal from scope 4 leaves it in
`dirty_tasks`, while the claim says the removal takes it out. -/
theorem claim_c3_counterexample :
    (wRemove.tasks 0).state.state_type = .Dirty
    ∧ (wRemove.scopes 4).dirty_tasks = [0]
    ∧ scopeDirtyAfterRemove (Task.remove_from_scope_internal_shallow 0 4 false wRemove) 4 =
        some [0] := by
  decide

/-- C3 (amended): for an Inner task whose count for scope `id` drops from
1 to 0, the shallow removal decrements `id.tasks`, decrements
`id.unfinished_tasks` when the task is not Done, leaves `id.dirty_tasks`
unchanged (the source never touches it here), touches no other scope and
no other task, and returns the task's children for recursion; when the
count merely decreases, no scope changes at all. -/
theorem claim_c3_remove_from_scope_shallow (w : Backend) (self : TaskId)
    (id : TaskScopeId) (wbo : Bool) (list : List (TaskScopeId × Nat))
    (hscopes : (w.tasks self).state.scopes = .Inner list) :
    (list.lookup id = some 1 →
        ∃ w',
          Task.remove_from_scope_internal_shallow self id wbo w =
            some (w',
              if (w.tasks self).state.children.isEmpty then none
              else some ((w.tasks self).state.children, wbo))
          ∧ (w'.scopes id).tasks = (w.scopes id).tasks - 1
          ∧ (w'.scopes id).unfinished_tasks =
              (if (w.tasks self).state.state_type = .Done
               then (w.scopes id).unfinished_tasks
               else (w.scopes id).unfinished_tasks - 1)
          ∧ (w'.scopes id).dirty_tasks = (w.scopes id).dirty_tasks
          ∧ (∀ s, s ≠ id → w'.scopes s = w.scopes s)
          ∧ (w'.tasks self).state.scopes = .Inner (assocDec list id)
          ∧ (∀ t, t ≠ self → w'.tasks t = w.tasks t))
    ∧ (∀ c, list.lookup id = some c → 2 ≤ c →
        ∃ w',
          Task.remove_from_scope_internal_shallow self id wbo w = some (w', none)
          ∧ w'.scopes = w.scopes
          ∧ (w'.tasks self).state.scopes = .Inner (assocDec list id)
          ∧ (∀ t, t ≠ self → w'.tasks t = w.tasks t)) := by
  constructor
  · intro hlk
    simp only [Task.remove_from_scope_internal_shallow, hscopes, scopeListRemove, hlk]
    refine ⟨_, rfl, ?_, ?_, ?_, ?_, ?_, ?_⟩
    · by_cases hD : (w.tasks self).state.state_type = .Done <;>
        simp [hD, Scope.decrement_tasks, Scope.decrement_unfinished_tasks]
    · by_cases hD : (w.tasks self).state.state_type = .Done <;>
        simp [hD, Scope.decrement_tasks, Scope.decrement_unfinished_tasks]
    · by_cases hD : (w.tasks self).state.state_type = .Done <;>
        simp [hD, Scope.decrement_tasks, Scope.decrement_unfinished_tasks]
    · intro s hs
      simp [hs]
    · simp
    · intro t ht
      simp [ht]
  · intro c hlk hc
    have h2 : ¬(c ≤ 1) := by omega
    simp only [Task.remove_from_scope_internal_shallow, hscopes, scopeListRemove, hlk,
      if_neg h2]
    refine ⟨_, rfl, rfl, ?_, ?_⟩
    · simp
    · intro t ht
      simp [ht]

/-- C3 witness: the count-1-to-0 removal of the concrete task from scope 4
drops the scope's member count to 0. -/
theorem claim_c3_remove_from_scope_shallow_witness :
    (wRemove.tasks 0).state.scopes = .Inner [(4, 1)]
    ∧ ([(4, 1)] : List (TaskScopeId × Nat)).lookup 4 = some 1
    ∧ scopeTasksAfterRemove (Task.remove_from_scope_internal_shallow 0 4 false wRemove) 4 =
        some 0 := by
  refine ⟨by decide, by decide, ?_⟩
  obtain ⟨w', heq, htasks, -⟩ :=
    (claim_c3_remove_from_scope_shallow wRemove 0 4 false [(4, 1)] (by decide)).1 (by decide)
  rw [heq]
  simp only [scopeTasksAfterRemove]
  rw [htasks]
  decide

/-! ## C8: the promotion trigger at bag size 100 -/

/-- C8: a shallow add of scope `id` to an Inner task enqueues a
`MakeRootScoped` job exactly when the add newly inserts the scope, the
`will_be_optimized` flag is off, and the bag then holds exactly 100
distinct scopes — and then it enqueues exactly one. -/
theorem claim_c8_promotion_trigger (w : Backend) (self : TaskId) (id : TaskScopeId)
    (wbo : Bool) (list : List (TaskScopeId × Nat))
    (hscopes : (w.tasks self).state.scopes = .Inner list) :
    ((Task.add_to_scope_internal_shallow self id wbo w).2.2).count
        (Effect.backgroundJob (.MakeRootScoped self)) =
      if list.lookup id = none ∧ wbo = false ∧ list.length + 1 = 100 then 1 else 0 := by
  cases hlk : list.lookup id with
  | some c =>
      simp [Task.add_to_scope_internal_shallow, hscopes, scopeListAdd, hlk]
  | none =>
      cases wbo with
      | true =>
          by_cases hc : (w.tasks self).state.children.isEmpty <;>
            simp [Task.add_to_scope_internal_shallow, hscopes, scopeListAdd, hlk, hc,
              apply_ite, List.count_cons, List.count_nil]
      | false =>
          by_cases hlen : list.length + 1 = 100
          · by_cases hc : (w.tasks self).state.children.isEmpty <;>
              simp [Task.add_to_scope_internal_shallow, hscopes, scopeListAdd, hlk, hc, hlen,
                apply_ite, List.count_cons, List.count_nil, List.count_append]
          · have htr : ((list.length + 1 == 100) : Bool) = false := by
              rw [beq_eq_false_iff_ne]
              exact hlen
            by_cases hc : (w.tasks self).state.children.isEmpty <;>
              simp [Task.add_to_scope_internal_shallow, hscopes, scopeListAdd, hlk, hc, hlen,
                htr, apply_ite, List.count_cons, List.count_nil, List.count_append]

/-- C8 witness: growing the concrete 99-scope bag to 100 enqueues exactly
one `MakeRootScoped` job. -/
theorem claim_c8_promotion_trigger_witness :
    (wC8.tasks 0).state.scopes = .Inner c8List
    ∧ ((Task.add_to_scope_internal_shallow 0 99 false wC8).2.2).count
        (Effect.backgroundJob (.MakeRootScoped 0)) = 1 := by
  refine ⟨by decide, ?_⟩
  have h := claim_c8_promotion_trigger wC8 0 99 false c8List (by decide)
  rw [h]
  decide

/-! ## Preservation lemmas for back-edge clearing and scope folds -/

theorem remove_dependent_task_preserves (dep : RawVc) (reader : TaskId) (w : Backend) :
    (Task.remove_dependent_task dep reader w).scopes = w.scopes
    ∧ (Task.remove_dependent_task dep reader w).next_scope = w.next_scope
    ∧ (∀ t, ((Task.remove_dependent_task dep reader w).tasks t).execution_data =
        (w.tasks t).execution_data)
    ∧ (∀ t, ((Task.remove_dependent_task dep reader w).tasks t).state.state_type =
        (w.tasks t).state.state_type)
    ∧ (∀ t, ((Task.remove_dependent_task dep reader w).tasks t).state.scopes =
        (w.tasks t).state.scopes)
    ∧ (∀ t, ((Task.remove_dependent_task dep reader w).tasks t).ty = (w.tasks t).ty) := by
  cases dep with
  | taskOutput t2 =>
      refine ⟨rfl, rfl, ?_, ?_, ?_, ?_⟩ <;> intro t <;> by_cases h : t = t2 <;>
        simp [Task.remove_dependent_task, h]
  | taskCell t2 i =>
      refine ⟨rfl, rfl, ?_, ?_, ?_, ?_⟩ <;> intro t <;> by_cases h : t = t2 <;>
        simp [Task.remove_dependent_task, h]

theorem removeDepFold_preserves (self : TaskId) (deps : List RawVc) (w0 : Backend) :
    (deps.foldl (fun w dep => Task.remove_dependent_task dep self w) w0).scopes = w0.scopes
    ∧ (deps.foldl (fun w dep => Task.remove_dependent_task dep self w) w0).next_scope =
        w0.next_scope
    ∧ (∀ t, ((deps.foldl (fun w dep => Task.remove_dependent_task dep self w) w0).tasks
          t).execution_data = (w0.tasks t).execution_data)
    ∧ (∀ t, ((deps.foldl (fun w dep => Task.remove_dependent_task dep self w) w0).tasks
          t).state.state_type = (w0.tasks t).state.state_type)
    ∧ (∀ t, ((deps.foldl (fun w dep => Task.remove_dependent_task dep self w) w0).tasks
          t).state.scopes = (w0.tasks t).state.scopes)
    ∧ (∀ t, ((deps.foldl (fun w dep => Task.remove_dependent_task dep self w) w0).tasks
          t).ty = (w0.tasks t).ty) := by
  induction deps generalizing w0 with
  | nil => exact ⟨rfl, rfl, fun _ => rfl, fun _ => rfl, fun _ => rfl, fun _ => rfl⟩
  | cons dep rest ih =>
      obtain ⟨h1, h2, h3, h4, h5, h6⟩ := ih (Task.remove_dependent_task dep self w0)
      obtain ⟨g1, g2, g3, g4, g5, g6⟩ := remove_dependent_task_preserves dep self w0
      exact ⟨h1.trans g1, h2.trans g2, fun t => (h3 t).trans (g3 t),
             fun t => (h4 t).trans (g4 t), fun t => (h5 t).trans (g5 t),
             fun t => (h6 t).trans (g6 t)⟩

theorem clear_dependencies_spec (self : TaskId) (w : Backend) :
    (Task.clear_dependencies self w).scopes = w.scopes
    ∧ (Task.clear_dependencies self w).next_scope = w.next_scope
    ∧ ((Task.clear_dependencies self w).tasks self).execution_data.dependencies = []
    ∧ (∀ t, ((Task.clear_dependencies self w).tasks t).state.state_type =
        (w.tasks t).state.state_type)
    ∧ (∀ t, ((Task.clear_dependencies self w).tasks t).state.scopes =
        (w.tasks t).state.scopes)
    ∧ (∀ t, ((Task.clear_dependencies self w).tasks t).ty = (w.tasks t).ty) := by
  unfold Task.clear_dependencies
  obtain ⟨h1, h2, h3, h4, h5, h6⟩ := removeDepFold_preserves self
    (w.tasks self).execution_data.dependencies
    (w.setTask self { w.tasks self with execution_data :=
      { (w.tasks self).execution_data with dependencies := [] } })
  refine ⟨h1, h2, ?_, ?_, ?_, ?_⟩
  · rw [h3 self]
    simp
  · intro t
    rw [h4 t]
    by_cases h : t = self <;> simp [h]
  · intro t
    rw [h5 t]
    by_cases h : t = self <;> simp [h]
  · intro t
    rw [h6 t]
    by_cases h : t = self <;> simp [h]

theorem decrementUnfinishedFold_cons (a : TaskScopeId) (rest : List TaskScopeId)
    (w : Backend) :
    Task.decrementUnfinishedFold (a :: rest) w =
      Task.decrementUnfinishedFold rest
        (w.setScope a (w.scopes a).decrement_unfinished_tasks) := rfl

theorem decrementUnfinishedFold_spec (scopes : List TaskScopeId) (w : Backend)
    (hnd : scopes.Nodup) :
    (∀ s ∈ scopes, (Task.decrementUnfinishedFold scopes w).scopes s =
        (w.scopes s).decrement_unfinished_tasks)
    ∧ (∀ s, s ∉ scopes → (Task.decrementUnfinishedFold scopes w).scopes s = w.scopes s)
    ∧ (Task.decrementUnfinishedFold scopes w).tasks = w.tasks
    ∧ (Task.decrementUnfinishedFold scopes w).next_scope = w.next_scope := by
  induction scopes generalizing w with
  | nil => exact ⟨fun s hs => absurd hs (List.not_mem_nil s), fun _ _ => rfl, rfl, rfl⟩
  | cons a rest ih =>
      obtain ⟨hna, hndr⟩ := List.nodup_cons.mp hnd
      obtain ⟨ih1, ih2, ih3, ih4⟩ :=
        ih (w.setScope a (w.scopes a).decrement_unfinished_tasks) hndr
      refine ⟨?_, ?_, ?_, ?_⟩
      · intro s hs
        rcases List.mem_cons.mp hs with h | h
        · subst h
          rw [decrementUnfinishedFold_cons, ih2 s hna]
          simp
        · have hne : s ≠ a := fun hsa => hna (hsa ▸ h)
          rw [decrementUnfinishedFold_cons, ih1 s h]
          simp [hne]
      · intro s hs
        have hs1 : s ∉ rest := fun h => hs (List.mem_cons_of_mem _ h)
        have hs2 : s ≠ a := fun h => hs (h ▸ List.mem_cons_self a rest)
        rw [decrementUnfinishedFold_cons, ih2 s hs1]
        simp [hs2]
      · rw [decrementUnfinishedFold_cons, ih3]
        rfl
      · rw [decrementUnfinishedFold_cons, ih4]
        rfl

/-! ## C1: `execution_completed` -/

/-- C1: `execution_completed` in `InProgress` installs the drained tracker
set as the dependencies (fully replacing the previous execution's set),
moves the task to `Done`, decrements `unfinished_tasks` exactly once for
every containing scope (touching nothing else there and no other scope),
fires the task's event, and returns false; in `InProgressDirty` it
clears the dependencies and returns true with state `Scheduled` when
some containing scope is active, false with state `Dirty` otherwise. -/
theorem claim_c1_execution_completed (w : Backend) (self : TaskId)
    (cm : Option Nat) (dur : Nat) (tracked : List RawVc)
    (hnd : (w.tasks self).state.scopes.iterList.Nodup) :
    ((w.tasks self).state.state_type = .InProgress →
        ∃ w' effects,
          Task.execution_completed self cm dur tracked w = some (w', false, effects)
          ∧ (w'.tasks self).state.state_type = .Done
          ∧ (w'.tasks self).execution_data.dependencies = tracked
          ∧ (∀ s ∈ (w.tasks self).state.scopes.iterList,
              (w'.scopes s).unfinished_tasks = (w.scopes s).unfinished_tasks - 1
              ∧ (w'.scopes s).tasks = (w.scopes s).tasks
              ∧ (w'.scopes s).dirty_tasks = (w.scopes s).dirty_tasks
              ∧ (w'.scopes s).active_count = (w.scopes s).active_count
              ∧ (w'.scopes s).children = (w.scopes s).children)
          ∧ (∀ s, s ∉ (w.tasks self).state.scopes.iterList → w'.scopes s = w.scopes s)
          ∧ Effect.fireEvent self ∈ effects
          ∧ (∀ t, t ≠ self → w'.tasks t = w.tasks t))
    ∧ ((w.tasks self).state.state_type = .InProgressDirty →
        ∃ w' effects,
          Task.execution_completed self cm dur tracked w =
            some (w',
              (w.tasks self).state.scopes.iterList.any (fun s => (w.scopes s).is_active),
              effects)
          ∧ (w'.tasks self).state.state_type =
              (if (w.tasks self).state.scopes.iterList.any (fun s => (w.scopes s).is_active)
               then TaskStateType.Scheduled else TaskStateType.Dirty)
          ∧ (w'.tasks self).execution_data.dependencies = []
          ∧ w'.scopes = w.scopes) := by
  constructor
  · intro h
    simp only [Task.execution_completed, h]
    refine ⟨_, _, rfl, ?_, ?_, ?_, ?_, ?_, ?_⟩
    · rw [congrFun (decrementUnfinishedFold_spec _ _ hnd).2.2.1 self]
      simp
    · rw [congrFun (decrementUnfinishedFold_spec _ _ hnd).2.2.1 self]
      simp
    · intro s hs
      rw [(decrementUnfinishedFold_spec _ _ hnd).1 s hs]
      simp [Scope.decrement_unfinished_tasks]
    · intro s hs
      rw [(decrementUnfinishedFold_spec _ _ hnd).2.1 s hs]
      simp
    · simp
    · intro t ht
      rw [congrFun (decrementUnfinishedFold_spec _ _ hnd).2.2.1 t]
      simp [ht]
  · intro h
    simp only [Task.execution_completed, h]
    refine ⟨_, _, rfl, ?_, ?_, ?_⟩
    · rw [(clear_dependencies_spec self _).2.2.2.1 self]
      simp [apply_ite (f := TaskState.state_type)]
    · exact (clear_dependencies_spec self _).2.2.1
    · exact (clear_dependencies_spec self _).1

/-- C1 witness: completing the concrete running task drops scope 1's
unfinished count from 1 to 0. -/
theorem claim_c1_execution_completed_witness :
    (wC1.tasks 0).state.state_type = .InProgress
    ∧ (wC1.tasks 0).state.scopes.iterList.Nodup
    ∧ scopeUnfinishedAfter
        (Task.execution_completed 0 none 3 [.taskOutput 7] wC1) 1 = some 0 := by
  refine ⟨by decide, by decide, ?_⟩
  obtain ⟨w', effects, heq, -, -, hsc, -, -, -⟩ :=
    (claim_c1_execution_completed wC1 0 none 3 [.taskOutput 7] (by decide)).1 (by decide)
  rw [heq]
  simp only [scopeUnfinishedAfter]
  rw [(hsc 1 (by decide)).1]
  decide

/-! ## C10: `AutoSet` refines a standard finite set -/

theorem lookup_isSome_iff {V : Type} (l : List (Nat × V)) (k : Nat) :
    (l.lookup k).isSome = true ↔ k ∈ l.map Prod.fst := by
  induction l with
  | nil => simp [List.lookup]
  | cons e rest ih =>
      obtain ⟨a, b⟩ := e
      by_cases h : k = a
      · subst h
        simp [List.lookup]
      · have hbeq : (k == a) = false := beq_eq_false_iff_ne.mpr h
        simp only [List.lookup, hbeq, List.map_cons, List.mem_cons]
        rw [ih]
        simp [h]

theorem lookup_map_replace {V : Type} (l : List (Nat × V)) (k : Nat) (v : V) (old : V)
    (h : l.lookup k = some old) :
    (l.map fun e => if e.1 = k then (e.1, v) else e).lookup k = some v := by
  induction l with
  | nil => simp [List.lookup] at h
  | cons e rest ih =>
      obtain ⟨a, b⟩ := e
      by_cases hak : a = k
      · subst hak
        simp only [List.map_cons]
        simp [List.lookup]
      · have hka : ¬k = a := fun hh => hak hh.symm
        have hbeq : (k == a) = false := beq_eq_false_iff_ne.mpr hka
        simp only [List.lookup, hbeq] at h
        simp only [List.map_cons]
        rw [if_neg hak]
        simp only [List.lookup, hbeq]
        exact ih h

theorem keys_map_replace {V : Type} (l : List (Nat × V)) (k : Nat) (v : V) :
    (l.map fun e => if e.1 = k then (e.1, v) else e).map Prod.fst = l.map Prod.fst := by
  induction l with
  | nil => rfl
  | cons e rest ih =>
      obtain ⟨a, b⟩ := e
      by_cases h : a = k <;> simp [h, ih]

theorem lookup_append_none {V : Type} (l1 l2 : List (Nat × V)) (k : Nat)
    (h : l1.lookup k = none) : (l1 ++ l2).lookup k = l2.lookup k := by
  induction l1 with
  | nil => rfl
  | cons e rest ih =>
      obtain ⟨a, b⟩ := e
      cases hbeq : (k == a) with
      | true => simp [List.lookup, hbeq] at h
      | false =>
          simp only [List.lookup, hbeq] at h
          simp only [List.cons_append, List.lookup, hbeq]
          exact ih h

theorem lookup_filter_ne {V : Type} (l : List (Nat × V)) (k : Nat) :
    (l.filter fun e => !(e.1 == k)).lookup k = none := by
  induction l with
  | nil => rfl
  | cons e rest ih =>
      obtain ⟨a, b⟩ := e
      by_cases h : a = k
      · have hb : (a == k) = true := by simp [h]
        simp [List.filter, hb, ih]
      · have hb : (a == k) = false := beq_eq_false_iff_ne.mpr h
        have hkb : (k == a) = false := beq_eq_false_iff_ne.mpr fun hh => h hh.symm
        simp [List.filter, List.lookup, hb, hkb, ih]

theorem keys_filter_ne {V : Type} (l : List (Nat × V)) (k : Nat) :
    (l.filter fun e => !(e.1 == k)).map Prod.fst =
      (l.map Prod.fst).filter fun x => !(x == k) := by
  induction l with
  | nil => rfl
  | cons e rest ih =>
      obtain ⟨a, b⟩ := e
      cases hbeq : (a == k) with
      | true => simp [List.filter, hbeq, ih]
      | false => simp [List.filter, hbeq, ih]

theorem autoSet_insert_spec (s : AutoSet) (r : SpecSet) (hinv : s.keys = r) (k : Nat) :
    (s.insert k).2 = (SpecSet.insert r k).2
    ∧ (s.insert k).1.keys = (SpecSet.insert r k).1 := by
  subst hinv
  cases hlk : s.map.entries.lookup k with
  | some old =>
      have hkm : k ∈ List.map Prod.fst s.map.entries :=
        (lookup_isSome_iff _ _).mp (by simp [hlk])
      have hk : k ∈ s.keys := hkm
      constructor
      · simp only [AutoSet.insert, AutoMap.insert, hlk, SpecSet.insert]
        rw [if_pos hk]
        rfl
      · simp only [AutoSet.insert, AutoMap.insert, hlk, SpecSet.insert, AutoSet.keys]
        rw [if_pos hkm]
        exact keys_map_replace _ _ _
  | none =>
      have hkm : k ∉ List.map Prod.fst s.map.entries := fun hmem => by
        have hsome := (lookup_isSome_iff s.map.entries k).mpr hmem
        simp [hlk] at hsome
      have hk : k ∉ s.keys := hkm
      constructor
      · simp only [AutoSet.insert, AutoMap.insert, hlk, SpecSet.insert]
        rw [if_neg hk]
        rfl
      · simp only [AutoSet.insert, AutoMap.insert, hlk, SpecSet.insert, AutoSet.keys]
        rw [if_neg hkm]
        simp

theorem autoSet_remove_spec (s : AutoSet) (r : SpecSet) (hinv : s.keys = r) (k : Nat) :
    (s.remove k).2 = (SpecSet.remove r k).2
    ∧ (s.remove k).1.keys = (SpecSet.remove r k).1 := by
  subst hinv
  cases hlk : s.map.entries.lookup k with
  | some old =>
      have hkm : k ∈ List.map Prod.fst s.map.entries :=
        (lookup_isSome_iff _ _).mp (by simp [hlk])
      have hk : k ∈ s.keys := hkm
      constructor
      · simp only [AutoSet.remove, AutoMap.remove, hlk, SpecSet.remove]
        rw [if_pos hk]
        rfl
      · simp only [AutoSet.remove, AutoMap.remove, hlk, SpecSet.remove, AutoSet.keys]
        rw [if_pos hkm]
        exact keys_filter_ne _ _
  | none =>
      have hkm : k ∉ List.map Prod.fst s.map.entries := fun hmem => by
        have hsome := (lookup_isSome_iff s.map.entries k).mpr hmem
        simp [hlk] at hsome
      have hk : k ∉ s.keys := hkm
      constructor
      · simp only [AutoSet.remove, AutoMap.remove, hlk, SpecSet.remove]
        rw [if_neg hk]
        rfl
      · simp only [AutoSet.remove, AutoMap.remove, hlk, SpecSet.remove, AutoSet.keys]
        rw [if_neg hkm]

theorem runAuto_refines (ops : List SetOp) (s : AutoSet) (r : SpecSet)
    (hinv : s.keys = r) :
    (runAuto ops s).2 = (runSpec ops r).2
    ∧ (runAuto ops s).1.keys = (runSpec ops r).1 := by
  induction ops generalizing s r with
  | nil => exact ⟨rfl, hinv⟩
  | cons op rest ih =>
      cases op with
      | insert k =>
          obtain ⟨h1, h2⟩ := autoSet_insert_spec s r hinv k
          obtain ⟨ih1, ih2⟩ := ih (s.insert k).1 (SpecSet.insert r k).1 h2
          exact ⟨by simp only [runAuto, runSpec]; rw [h1, ih1], ih2⟩
      | remove k =>
          obtain ⟨h1, h2⟩ := autoSet_remove_spec s r hinv k
          obtain ⟨ih1, ih2⟩ := ih (s.remove k).1 (SpecSet.remove r k).1 h2
          exact ⟨by simp only [runAuto, runSpec]; rw [h1, ih1], ih2⟩

theorem autoset_insert_observes (s : AutoSet) (k : Nat) :
    (s.insert k).2 = !(s.contains k) ∧ (s.insert k).1.contains k = true := by
  cases hlk : s.map.entries.lookup k with
  | some old =>
      refine ⟨?_, ?_⟩
      · simp [AutoSet.insert, AutoMap.insert, AutoSet.contains, AutoMap.contains_key, hlk]
      · simp [AutoSet.insert, AutoMap.insert, AutoSet.contains, AutoMap.contains_key, hlk,
          lookup_map_replace _ _ _ _ hlk]
  | none =>
      refine ⟨?_, ?_⟩
      · simp [AutoSet.insert, AutoMap.insert, AutoSet.contains, AutoMap.contains_key, hlk]
      · simp [AutoSet.insert, AutoMap.insert, AutoSet.contains, AutoMap.contains_key, hlk,
          lookup_append_none _ _ _ hlk, List.lookup]

theorem autoset_remove_observes (s : AutoSet) (k : Nat) :
    (s.remove k).2 = s.contains k ∧ (s.remove k).1.contains k = false := by
  cases hlk : s.map.entries.lookup k with
  | some old =>
      refine ⟨?_, ?_⟩
      · simp [AutoSet.remove, AutoMap.remove, AutoSet.contains, AutoMap.contains_key, hlk]
      · simp [AutoSet.remove, AutoMap.remove, AutoSet.contains, AutoMap.contains_key, hlk,
          lookup_filter_ne]
  | none =>
      refine ⟨?_, ?_⟩
      · simp [AutoSet.remove, AutoMap.remove, AutoSet.contains, AutoMap.contains_key, hlk]
      · simp [AutoSet.remove, AutoMap.remove, AutoSet.contains, AutoMap.contains_key, hlk]

/-- C10: `AutoSet` refines a standard finite set.  Running any operation
sequence from the empty set yields the same return values as the
reference set, the held keys are exactly the reference set, `len` is its
size (the distinct keys inserted and not subsequently removed),
`is_empty` holds exactly when `len` is 0, `contains` agrees with
membership, and on any reachable state `insert` returns true exactly
when the key was absent (and makes it contained) while `remove` returns
true exactly when it was present (and removes it). -/
theorem claim_c10_autoset_refinement (ops : List SetOp) :
    (runAuto ops AutoSet.new).2 = (runSpec ops []).2
    ∧ (runAuto ops AutoSet.new).1.keys = (runSpec ops []).1
    ∧ (runAuto ops AutoSet.new).1.len = (runSpec ops []).1.length
    ∧ ((runAuto ops AutoSet.new).1.is_empty = true ↔
        (runAuto ops AutoSet.new).1.len = 0)
    ∧ (∀ k, (runAuto ops AutoSet.new).1.contains k = true ↔ k ∈ (runSpec ops []).1)
    ∧ (∀ k,
        ((runAuto ops AutoSet.new).1.insert k).2 =
          !((runAuto ops AutoSet.new).1.contains k)
        ∧ ((runAuto ops AutoSet.new).1.insert k).1.contains k = true
        ∧ ((runAuto ops AutoSet.new).1.remove k).2 =
            (runAuto ops AutoSet.new).1.contains k
        ∧ ((runAuto ops AutoSet.new).1.remove k).1.contains k = false) := by
  obtain ⟨h1, h2⟩ := runAuto_refines ops AutoSet.new [] rfl
  refine ⟨h1, h2, ?_, ?_, ?_, ?_⟩
  · rw [← h2]
    simp [AutoSet.len, AutoMap.len, AutoSet.keys]
  · simp [AutoSet.is_empty, AutoMap.is_empty, AutoSet.len, AutoMap.len,
      List.isEmpty_iff, List.length_eq_zero]
  · intro k
    rw [← h2]
    simp only [AutoSet.contains, AutoMap.contains_key, AutoSet.keys]
    exact lookup_isSome_iff _ _
  · intro k
    obtain ⟨hi1, hi2⟩ := autoset_insert_observes (runAuto ops AutoSet.new).1 k
    obtain ⟨hr1, hr2⟩ := autoset_remove_observes (runAuto ops AutoSet.new).1 k
    exact ⟨hi1, hi2, hr1, hr2⟩

/-- C10 witness: a concrete run (double insert, absent remove, present
remove) returns exactly the reference answers. -/
theorem claim_c10_autoset_refinement_witness :
    (runAuto [SetOp.insert 1, SetOp.insert 1, SetOp.remove 2, SetOp.remove 1]
        AutoSet.new).2 = [true, false, false, true] := by
  rw [(claim_c10_autoset_refinement
        [SetOp.insert 1, SetOp.insert 1, SetOp.remove 2, SetOp.remove 1]).1]
  decide

/-! ## Preservation through the scope-add traversal (for C6) -/

theorem addPreserves_refl (id : TaskScopeId) (w : Backend) : AddPreserves id w w :=
  ⟨fun _ _ => ⟨rfl, rfl, rfl, rfl⟩, rfl, fun _ _ h => h, rfl⟩

theorem addPreserves_trans {id : TaskScopeId} {w1 w2 w3 : Backend}
    (h12 : AddPreserves id w1 w2) (h23 : AddPreserves id w2 w3) :
    AddPreserves id w1 w3 := by
  obtain ⟨a12, b12, c12, d12⟩ := h12
  obtain ⟨a23, b23, c23, d23⟩ := h23
  refine ⟨?_, b23.trans b12, fun t r h => c23 t r (c12 t r h), d23.trans d12⟩
  intro s hs
  obtain ⟨x1, y1, z1, u1⟩ := a12 s hs
  obtain ⟨x2, y2, z2, u2⟩ := a23 s hs
  exact ⟨x2.trans x1, y2.trans y1, z2.trans z1, u2.trans u1⟩

theorem add_self_to_new_scope_preserves (self : TaskId) (st : TaskState)
    (id : TaskScopeId) (w : Backend) :
    (∀ s, s ≠ id → (Task.add_self_to_new_scope self st id w).2.1.scopes s = w.scopes s)
    ∧ ((Task.add_self_to_new_scope self st id w).2.1.scopes id).active_count =
        (w.scopes id).active_count
    ∧ (Task.add_self_to_new_scope self st id w).2.1.tasks = w.tasks
    ∧ (Task.add_self_to_new_scope self st id w).2.1.next_scope = w.next_scope
    ∧ (Task.add_self_to_new_scope self st id w).1.scopes = st.scopes
    ∧ (Task.add_self_to_new_scope self st id w).1.children = st.children := by
  refine ⟨fun s hs => ?_, ?_, ?_, ?_, ?_, ?_⟩ <;>
  · unfold Task.add_self_to_new_scope
    by_cases h1 : st.state_type = .Done <;>
      by_cases h2 : st.state_type = .Dirty <;>
        by_cases h3 : 0 < (w.scopes id).active_count <;>
          simp_all [Scope.increment_tasks, Scope.increment_unfinished_tasks,
            Scope.add_dirty_task, Scope.is_active]

theorem shallow_addPreserves (self : TaskId) (id : TaskScopeId) (wbo : Bool) (w : Backend) :
    AddPreserves id w (Task.add_to_scope_internal_shallow self id wbo w).1 := by
  cases hsc : (w.tasks self).state.scopes with
  | Root root =>
      by_cases hr : root = id
      · have hred : (Task.add_to_scope_internal_shallow self id wbo w).1 = w := by
          simp [Task.add_to_scope_internal_shallow, hsc, hr]
        rw [hred]
        exact addPreserves_refl id w
      · have hir : id ≠ root := fun h => hr h.symm
        refine ⟨fun s hs => ?_, ?_, fun t r h => ?_, ?_⟩
        · simp only [Task.add_to_scope_internal_shallow, hsc]
          rw [if_pos hr]
          by_cases hb : ((w.scopes id).children.lookup root).isNone = true <;>
            by_cases hsr : s = root <;>
              simp [hb, hsr, hs, hr, hir, Scope.add_child, Backend.increase_scope_active,
                Backend.increase_scope_active_by]
        · simp only [Task.add_to_scope_internal_shallow, hsc]
          rw [if_pos hr]
          by_cases hb : ((w.scopes id).children.lookup root).isNone = true <;>
            simp [hb, hir, hr, Scope.add_child, Backend.increase_scope_active,
              Backend.increase_scope_active_by]
        · simp only [Task.add_to_scope_internal_shallow, hsc]
          rw [if_pos hr]
          by_cases hb : ((w.scopes id).children.lookup root).isNone = true <;>
            simp [hb, h, hr, hir, Scope.add_child, Backend.increase_scope_active,
              Backend.increase_scope_active_by]
        · simp only [Task.add_to_scope_internal_shallow, hsc]
          rw [if_pos hr]
          by_cases hb : ((w.scopes id).children.lookup root).isNone = true <;>
            simp [hb, hr, hir, Scope.add_child, Backend.increase_scope_active,
              Backend.increase_scope_active_by]
  | Inner list =>
      cases hnew : (scopeListAdd list id).2 with
      | false =>
          have hred : (Task.add_to_scope_internal_shallow self id wbo w).1 =
              w.setTask self
                { w.tasks self with state :=
                    { (w.tasks self).state with scopes := .Inner (scopeListAdd list id).1 } } := by
            simp [Task.add_to_scope_internal_shallow, hsc, hnew]
          rw [hred]
          refine ⟨fun s hs => ⟨rfl, rfl, rfl, rfl⟩, rfl, fun t r h => ?_, rfl⟩
          by_cases ht : t = self
          · subst ht
            rw [hsc] at h
            exact absurd h (by simp)
          · simpa [ht] using h
      | true =>
          obtain ⟨p1, p2, p3, p4, p5, p6⟩ := add_self_to_new_scope_preserves self
            { (w.tasks self).state with scopes := .Inner (scopeListAdd list id).1 } id w
          have hone : ∀ s, s ≠ id →
              ((Task.add_to_scope_internal_shallow self id wbo w).1.scopes s) =
                w.scopes s := by
            intro s hs
            simp only [Task.add_to_scope_internal_shallow, hsc, hnew, if_true]
            by_cases hc : (w.tasks self).state.children.isEmpty <;>
              simp [hc, p1 s hs]
          have hact :
              ((Task.add_to_scope_internal_shallow self id wbo w).1.scopes id).active_count =
                (w.scopes id).active_count := by
            simp only [Task.add_to_scope_internal_shallow, hsc, hnew, if_true]
            by_cases hc : (w.tasks self).state.children.isEmpty <;>
              simp [hc, p2]
          have htask : ∀ t r, (w.tasks t).state.scopes = .Root r →
              ((Task.add_to_scope_internal_shallow self id wbo w).1.tasks t).state.scopes =
                .Root r := by
            intro t r h
            simp only [Task.add_to_scope_internal_shallow, hsc, hnew, if_true]
            by_cases ht : t = self
            · subst ht
              rw [hsc] at h
              exact absurd h (by simp)
            · by_cases hc : (w.tasks self).state.children.isEmpty <;>
                simp [hc, ht, congrFun p3 t, h]
          have hnext :
              (Task.add_to_scope_internal_shallow self id wbo w).1.next_scope =
                w.next_scope := by
            simp only [Task.add_to_scope_internal_shallow, hsc, hnew, if_true]
            by_cases hc : (w.tasks self).state.children.isEmpty <;>
              simp [hc, p4]
          refine ⟨fun s hs => ?_, hact, htask, hnext⟩
          rw [hone s hs]
          exact ⟨rfl, rfl, rfl, rfl⟩

theorem addScopeQueueStep_preserves (id : TaskScopeId) (wbo : Bool)
    (acc : Backend × List (List TaskId × Bool) × Nat × List Effect) (child : TaskId) :
    AddPreserves id acc.1 (addScopeQueueStep id wbo acc child).1 := by
  unfold addScopeQueueStep
  cases hr : (Task.add_to_scope_internal_shallow child id wbo acc.1).2.1 <;>
    simp only [hr] <;>
      exact shallow_addPreserves child id wbo acc.1

theorem queueRoundFold_preserves (id : TaskScopeId) (wbo : Bool)
    (children : List TaskId) :
    ∀ acc : Backend × List (List TaskId × Bool) × Nat × List Effect,
      AddPreserves id acc.1 ((children.foldl (addScopeQueueStep id wbo) acc)).1 := by
  induction children with
  | nil => exact fun acc => addPreserves_refl _ _
  | cons c cs ih =>
      intro acc
      exact addPreserves_trans (addScopeQueueStep_preserves id wbo acc c)
        (ih (addScopeQueueStep id wbo acc c))

theorem addScopeQueueRound_preserves (id : TaskScopeId) (wbo : Bool)
    (children : List TaskId) (w : Backend) (q : List (List TaskId × Bool)) (qs : Nat) :
    AddPreserves id w (addScopeQueueRound id wbo children w q qs).1 :=
  queueRoundFold_preserves id wbo children (w, q, qs, [])

theorem runQueue_preserves (id : TaskScopeId) :
    ∀ (fuel : Nat) (queue : List (List TaskId × Bool)) (qsize : Nat) (w w' : Backend)
      (effects : List Effect),
      run_add_to_scope_queue fuel queue qsize id w = some (w', effects) →
      AddPreserves id w w' := by
  intro fuel
  induction fuel with
  | zero =>
      intro queue qsize w w' effects h
      exact absurd h (by simp [run_add_to_scope_queue])
  | succ fuel ih =>
      intro queue qsize w w' effects h
      match queue with
      | [] =>
          simp only [run_add_to_scope_queue] at h
          injection h with h2
          injection h2 with ha hb
          rw [← ha]
          exact addPreserves_refl id w
      | (children, wbo) :: rest =>
          simp only [run_add_to_scope_queue] at h
          split at h
          · rename_i res heq
            injection h with h2
            injection h2 with ha hb
            rw [← ha]
            exact addPreserves_trans
              (addScopeQueueRound_preserves id wbo children w rest (qsize - children.length))
              (ih _ _ _ _ _ heq)
          · exact absurd h (by simp)

theorem addInternal_preserves (fuel : Nat) (self : TaskId) (id : TaskScopeId) (wbo : Bool)
    (w w' : Backend) (effects : List Effect)
    (h : Task.add_to_scope_internal fuel self id wbo w = some (w', effects)) :
    AddPreserves id w w' := by
  simp only [Task.add_to_scope_internal] at h
  split at h
  · split at h
    · rename_i item hitem res heq
      injection h with h2
      injection h2 with ha hb
      rw [← ha]
      exact addPreserves_trans (shallow_addPreserves self id wbo w)
        (runQueue_preserves id fuel _ _ _ _ _ heq)
    · exact absurd h (by simp)
  · injection h with h2
    injection h2 with ha hb
    rw [← ha]
    exact shallow_addPreserves self id wbo w

theorem addChildFold_none (fuel : Nat) (id : TaskScopeId) (children : List TaskId) :
    children.foldl (addChildStep fuel id) none = none := by
  induction children with
  | nil => rfl
  | cons c cs ih => simpa [addChildStep] using ih

theorem addChildFold_preserves (fuel : Nat) (id : TaskScopeId) (children : List TaskId) :
    ∀ (w0 : Backend) (e0 : List Effect) (w' : Backend) (effects : List Effect),
      children.foldl (addChildStep fuel id) (some (w0, e0)) = some (w', effects) →
      AddPreserves id w0 w' := by
  induction children with
  | nil =>
      intro w0 e0 w' effects h
      injection h with h2
      injection h2 with ha hb
      rw [← ha]
      exact addPreserves_refl id w0
  | cons c cs ih =>
      intro w0 e0 w' effects h
      cases hq : Task.add_to_scope_internal fuel c id true w0 with
      | none =>
          have hstep : addChildStep fuel id (some (w0, e0)) c = none := by
            simp [addChildStep, hq]
          rw [List.foldl_cons, hstep, addChildFold_none] at h
          exact absurd h (by simp)
      | some q =>
          have hstep : addChildStep fuel id (some (w0, e0)) c = some (q.1, e0 ++ q.2) := by
            simp [addChildStep, hq]
          rw [List.foldl_cons, hstep] at h
          exact addPreserves_trans (addInternal_preserves fuel c id true w0 q.1 q.2 hq)
            (ih q.1 (e0 ++ q.2) w' effects h)

theorem addChildrenToScope_preserves (fuel : Nat) (id : TaskScopeId)
    (children : List TaskId) (w w' : Backend) (effects : List Effect)
    (h : addChildrenToScope fuel children id w = some (w', effects)) :
    AddPreserves id w w' :=
  addChildFold_preserves fuel id children w [] w' effects h

/-! ## The straight-line promotion (for C6) -/

theorem addChildCountFoldAux (R : TaskScopeId) (scopes : List (TaskScopeId × Nat)) :
    ∀ (w : Backend) (n : Nat), (scopes.map Prod.fst).Nodup →
      (∀ p ∈ scopes, (scopes.foldl (addChildCountStep R) (w, n)).1.scopes p.1 =
          { w.scopes p.1 with children := assocBump (w.scopes p.1).children R p.2 })
      ∧ (∀ s, s ∉ scopes.map Prod.fst →
          (scopes.foldl (addChildCountStep R) (w, n)).1.scopes s = w.scopes s)
      ∧ (scopes.foldl (addChildCountStep R) (w, n)).2 = n + activeOldScopes scopes w
      ∧ (scopes.foldl (addChildCountStep R) (w, n)).1.tasks = w.tasks
      ∧ (scopes.foldl (addChildCountStep R) (w, n)).1.next_scope = w.next_scope := by
  induction scopes with
  | nil =>
      intro w n _
      exact ⟨fun p hp => absurd hp (List.not_mem_nil p), fun s _ => rfl,
        by simp [activeOldScopes], rfl, rfl⟩
  | cons e rest ih =>
      obtain ⟨a, c⟩ := e
      intro w n hnd
      have hnd' : (a :: rest.map Prod.fst).Nodup := by simpa using hnd
      obtain ⟨hna, hndr⟩ := List.nodup_cons.mp hnd'
      have hne : ∀ p ∈ rest, (p : TaskScopeId × Nat).1 ≠ a := by
        intro p hp hpa
        exact hna (hpa ▸ List.mem_map_of_mem Prod.fst hp)
      have hstep : addChildCountStep R (w, n) (a, c) =
          (w.setScope a
            { w.scopes a with children := assocBump (w.scopes a).children R c },
           if (w.scopes a).is_active then n + 1 else n) := by
        simp [addChildCountStep, Scope.add_child_count]
      obtain ⟨ih1, ih2, ih3, ih4, ih5⟩ :=
        ih (w.setScope a { w.scopes a with children := assocBump (w.scopes a).children R c })
          (if (w.scopes a).is_active then n + 1 else n) hndr
      rw [List.foldl_cons, hstep]
      refine ⟨?_, ?_, ?_, ?_, ?_⟩
      · intro p hp
        rcases List.mem_cons.mp hp with h | h
        · subst h
          rw [ih2 a hna]
          simp
        · rw [ih1 p h]
          simp [hne p h]
      · intro s hs
        have hs1 : s ∉ rest.map Prod.fst := fun hmem =>
          hs (by simp only [List.map_cons]; exact List.mem_cons_of_mem _ hmem)
        have hs2 : s ≠ a := fun hsa =>
          hs (by
            simp only [List.map_cons]
            rw [hsa]
            exact List.mem_cons_self a (rest.map Prod.fst))
        rw [ih2 s hs1]
        simp [hs2]
      · rw [ih3]
        have hcong : activeOldScopes rest
            (w.setScope a
              { w.scopes a with children := assocBump (w.scopes a).children R c }) =
            activeOldScopes rest w := by
          unfold activeOldScopes
          congr 1
          apply List.filter_congr
          intro p hp
          simp [hne p hp]
        rw [hcong]
        unfold activeOldScopes
        by_cases ha : (w.scopes a).is_active
        · simp only [List.filter_cons]
          rw [if_pos (by simpa using ha)]
          simp [ha]
          omega
        · simp only [List.filter_cons]
          rw [if_neg (by simpa using ha)]
          simp [ha]
      · rw [ih4]
        rfl
      · rw [ih5]
        rfl

theorem addChildCountFold_spec (R : TaskScopeId) (scopes : List (TaskScopeId × Nat))
    (w : Backend) (hnd : (scopes.map Prod.fst).Nodup) :
    (∀ p ∈ scopes, (addChildCountFold scopes R w).1.scopes p.1 =
        { w.scopes p.1 with children := assocBump (w.scopes p.1).children R p.2 })
    ∧ (∀ s, s ∉ scopes.map Prod.fst →
        (addChildCountFold scopes R w).1.scopes s = w.scopes s)
    ∧ (addChildCountFold scopes R w).2 = activeOldScopes scopes w
    ∧ (addChildCountFold scopes R w).1.tasks = w.tasks
    ∧ (addChildCountFold scopes R w).1.next_scope = w.next_scope := by
  obtain ⟨h1, h2, h3, h4, h5⟩ := addChildCountFoldAux R scopes w 0 hnd
  exact ⟨h1, h2, by simpa using h3, h4, h5⟩

theorem removeSelfScopeUpdate_fields (self : TaskId) (stt : TaskStateType) (sc : Scope) :
    (removeSelfScopeUpdate self stt sc).children = sc.children
    ∧ (removeSelfScopeUpdate self stt sc).active_count = sc.active_count
    ∧ (removeSelfScopeUpdate self stt sc).tasks = sc.tasks - 1
    ∧ (removeSelfScopeUpdate self stt sc).unfinished_tasks =
        (if stt = .Done then sc.unfinished_tasks else sc.unfinished_tasks - 1)
    ∧ (removeSelfScopeUpdate self stt sc).dirty_tasks =
        (if stt = .Dirty then sc.dirty_tasks.erase self else sc.dirty_tasks) := by
  by_cases h1 : stt = .Done <;> by_cases h2 : stt = .Dirty <;>
    simp_all [removeSelfScopeUpdate, Scope.decrement_tasks,
      Scope.decrement_unfinished_tasks, Scope.remove_dirty_task]

theorem removeSelfFromOldScopes_cons (self : TaskId) (stt : TaskStateType)
    (a : TaskScopeId) (c : Nat) (rest : List (TaskScopeId × Nat)) (w : Backend) :
    removeSelfFromOldScopes self stt ((a, c) :: rest) w =
      removeSelfFromOldScopes self stt rest
        (w.setScope a (removeSelfScopeUpdate self stt (w.scopes a))) := rfl

theorem removeSelfFromOldScopes_spec (self : TaskId) (stt : TaskStateType)
    (scopes : List (TaskScopeId × Nat)) :
    ∀ w : Backend, (scopes.map Prod.fst).Nodup →
      (∀ p ∈ scopes, (removeSelfFromOldScopes self stt scopes w).scopes p.1 =
          removeSelfScopeUpdate self stt (w.scopes p.1))
      ∧ (∀ s, s ∉ scopes.map Prod.fst →
          (removeSelfFromOldScopes self stt scopes w).scopes s = w.scopes s)
      ∧ (removeSelfFromOldScopes self stt scopes w).tasks = w.tasks
      ∧ (removeSelfFromOldScopes self stt scopes w).next_scope = w.next_scope := by
  induction scopes with
  | nil =>
      intro w _
      exact ⟨fun p hp => absurd hp (List.not_mem_nil p), fun s _ => rfl, rfl, rfl⟩
  | cons e rest ih =>
      obtain ⟨a, c⟩ := e
      intro w hnd
      have hnd' : (a :: rest.map Prod.fst).Nodup := by simpa using hnd
      obtain ⟨hna, hndr⟩ := List.nodup_cons.mp hnd'
      have hne : ∀ p ∈ rest, (p : TaskScopeId × Nat).1 ≠ a := by
        intro p hp hpa
        exact hna (hpa ▸ List.mem_map_of_mem Prod.fst hp)
      obtain ⟨ih1, ih2, ih3, ih4⟩ :=
        ih (w.setScope a (removeSelfScopeUpdate self stt (w.scopes a))) hndr
      rw [removeSelfFromOldScopes_cons]
      refine ⟨?_, ?_, ?_, ?_⟩
      · intro p hp
        rcases List.mem_cons.mp hp with h | h
        · subst h
          rw [ih2 a hna]
          simp
        · rw [ih1 p h]
          simp [hne p h]
      · intro s hs
        have hs1 : s ∉ rest.map Prod.fst := fun hmem =>
          hs (by simp only [List.map_cons]; exact List.mem_cons_of_mem _ hmem)
        have hs2 : s ≠ a := fun hsa =>
          hs (by
            simp only [List.map_cons]
            rw [hsa]
            exact List.mem_cons_self a (rest.map Prod.fst))
        rw [ih2 s hs1]
        simp [hs2]
      · rw [ih3]
        rfl
      · rw [ih4]
        rfl

theorem add_self_to_new_scope_spec (self : TaskId) (st : TaskState) (id : TaskScopeId)
    (w : Backend) :
    (Task.add_self_to_new_scope self st id w).1.state_type =
      (if st.state_type = .Dirty ∧ 0 < (w.scopes id).active_count
       then TaskStateType.Scheduled else st.state_type)
    ∧ ((Task.add_self_to_new_scope self st id w).2.2 = true ↔
        (st.state_type = .Dirty ∧ 0 < (w.scopes id).active_count))
    ∧ ((Task.add_self_to_new_scope self st id w).2.1.scopes id).tasks =
        (w.scopes id).tasks + 1
    ∧ ((Task.add_self_to_new_scope self st id w).2.1.scopes id).unfinished_tasks =
        (if st.state_type = .Done then (w.scopes id).unfinished_tasks
         else (w.scopes id).unfinished_tasks + 1)
    ∧ ((Task.add_self_to_new_scope self st id w).2.1.scopes id).children =
        (w.scopes id).children := by
  by_cases h1 : st.state_type = .Done <;> by_cases h2 : st.state_type = .Dirty <;>
    by_cases h3 : 0 < (w.scopes id).active_count <;>
      simp_all [Task.add_self_to_new_scope, Scope.increment_tasks,
        Scope.increment_unfinished_tasks, Scope.add_dirty_task, Scope.is_active]

theorem promoteShallow_spec (self : TaskId) (list : List (TaskScopeId × Nat)) (w : Backend)
    (hnd : (list.map Prod.fst).Nodup)
    (hfresh : ∀ p ∈ list, (p : TaskScopeId × Nat).1 ≠ w.next_scope) :
    ((promoteShallow self list w).1.tasks self).state.scopes = .Root w.next_scope
    ∧ (promoteShallow self list w).2.1.children = (w.tasks self).state.children
    ∧ (∀ p ∈ list,
        ((promoteShallow self list w).1.scopes p.1).children =
          assocBump (w.scopes p.1).children w.next_scope p.2
        ∧ ((promoteShallow self list w).1.scopes p.1).tasks = (w.scopes p.1).tasks - 1
        ∧ ((promoteShallow self list w).1.scopes p.1).unfinished_tasks =
            (if (w.tasks self).state.state_type = .Done
             then (w.scopes p.1).unfinished_tasks
             else (w.scopes p.1).unfinished_tasks - 1)
        ∧ ((promoteShallow self list w).1.scopes p.1).dirty_tasks =
            (if (w.tasks self).state.state_type = .Dirty ∧ activeOldScopes list w = 0
             then ((w.scopes p.1).dirty_tasks).erase self
             else (w.scopes p.1).dirty_tasks))
    ∧ ((promoteShallow self list w).1.scopes w.next_scope).active_count =
        activeOldScopes list w
    ∧ ((promoteShallow self list w).1.scopes w.next_scope).tasks = 1
    ∧ ((promoteShallow self list w).1.scopes w.next_scope).unfinished_tasks =
        (if (w.tasks self).state.state_type = .Done then 0 else 1) := by
  have hniR : w.next_scope ∉ list.map Prod.fst := by
    intro hmem
    obtain ⟨p, hp, hpe⟩ := List.mem_map.mp hmem
    exact hfresh p hp hpe
  simp only [promoteShallow]
  set R := w.next_scope with hR
  set w1 := ({ w with next_scope := R + 1 }).setScope R Scope.fresh with hw1
  set f := addChildCountFold list R w1 with hf
  set w2 := (if 0 < f.2 then f.1.increase_scope_active_by R f.2 else f.1) with hw2
  set a := Task.add_self_to_new_scope self
    { (w.tasks self).state with scopes := .Root R } R w2 with ha
  set w3 := removeSelfFromOldScopes self a.1.state_type list a.2.1 with hw3
  -- stage w1
  have hw1s : ∀ s, s ≠ R → w1.scopes s = w.scopes s := by
    intro s hs
    rw [hw1]
    simp [hs]
  have hw1R : w1.scopes R = Scope.fresh := by
    rw [hw1]
    simp
  -- stage f
  obtain ⟨hf1, hf2, hf3, hf4, hf5⟩ := addChildCountFold_spec R list w1 hnd
  rw [← hf] at hf1 hf2 hf3 hf4 hf5
  have hfp : ∀ p ∈ list, f.1.scopes p.1 =
      { w.scopes p.1 with
        children := assocBump (w.scopes p.1).children R p.2 } := by
    intro p hp
    rw [hf1 p hp, hw1s p.1 (hfresh p hp)]
  have hfR : f.1.scopes R = Scope.fresh := by
    rw [hf2 R hniR, hw1R]
  have hacts : activeOldScopes list w1 = activeOldScopes list w := by
    unfold activeOldScopes
    congr 1
    apply List.filter_congr
    intro p hp
    rw [hw1s p.1 (hfresh p hp)]
  have hfc : f.2 = activeOldScopes list w := hf3.trans hacts
  -- stage w2
  have hw2s : ∀ s, s ≠ R → w2.scopes s = f.1.scopes s := by
    intro s hs
    rw [hw2]
    by_cases h0 : 0 < f.2 <;> simp [h0, Backend.increase_scope_active_by, hs]
  have hw2Ra : (w2.scopes R).active_count = activeOldScopes list w := by
    rw [hw2]
    by_cases h0 : 0 < f.2
    · rw [if_pos h0]
      simp [Backend.increase_scope_active_by, hfR, Scope.fresh, hfc]
    · have h00 : f.2 = 0 := by omega
      rw [if_neg h0, hfR, ← hfc, h00]
      simp [Scope.fresh]
  have hw2Rt : (w2.scopes R).tasks = 0 := by
    rw [hw2]
    by_cases h0 : 0 < f.2 <;>
      simp [h0, Backend.increase_scope_active_by, hfR, Scope.fresh]
  have hw2Ru : (w2.scopes R).unfinished_tasks = 0 := by
    rw [hw2]
    by_cases h0 : 0 < f.2 <;>
      simp [h0, Backend.increase_scope_active_by, hfR, Scope.fresh]
  -- stage a
  obtain ⟨pa1, pa2, pa3, pa4, pa5, pa6⟩ := add_self_to_new_scope_preserves self
    { (w.tasks self).state with scopes := .Root R } R w2
  rw [← ha] at pa1 pa2 pa3 pa4 pa5 pa6
  obtain ⟨sa1, sa2, sa3, sa4, sa5⟩ := add_self_to_new_scope_spec self
    { (w.tasks self).state with scopes := .Root R } R w2
  rw [← ha] at sa1 sa2 sa3 sa4 sa5
  have hstscope : a.1.scopes = .Root R := pa5
  have hstchildren : a.1.children = (w.tasks self).state.children := pa6
  have hstt : a.1.state_type =
      (if (w.tasks self).state.state_type = .Dirty ∧ 0 < activeOldScopes list w
       then TaskStateType.Scheduled else (w.tasks self).state.state_type) := by
    rw [sa1, hw2Ra]
  have hap : ∀ p ∈ list, a.2.1.scopes p.1 =
      { w.scopes p.1 with
        children := assocBump (w.scopes p.1).children R p.2 } := by
    intro p hp
    rw [pa1 p.1 (hfresh p hp), hw2s p.1 (hfresh p hp), hfp p hp]
  have haRt : (a.2.1.scopes R).tasks = 1 := by
    rw [sa3, hw2Rt]
  have haRu : (a.2.1.scopes R).unfinished_tasks =
      (if (w.tasks self).state.state_type = .Done then 0 else 1) := by
    rw [sa4, hw2Ru]
  have haRa : (a.2.1.scopes R).active_count = activeOldScopes list w := by
    rw [pa2, hw2Ra]
  -- state-type characterizations
  have hDone : (a.1.state_type = .Done) ↔ ((w.tasks self).state.state_type = .Done) := by
    by_cases hc : ((w.tasks self).state.state_type = .Dirty ∧ 0 < activeOldScopes list w)
    · rw [hstt, if_pos hc]
      simp [hc.1]
    · rw [hstt, if_neg hc]
  have hDirty : (a.1.state_type = .Dirty) ↔
      ((w.tasks self).state.state_type = .Dirty ∧ activeOldScopes list w = 0) := by
    by_cases hd : (w.tasks self).state.state_type = .Dirty
    · by_cases hz : activeOldScopes list w = 0
      · have hnc : ¬((w.tasks self).state.state_type = .Dirty ∧
            0 < activeOldScopes list w) := by
          intro hcc
          omega
        rw [hstt, if_neg hnc]
        simp [hd, hz]
      · have hpos : 0 < activeOldScopes list w := Nat.pos_of_ne_zero hz
        rw [hstt, if_pos ⟨hd, hpos⟩]
        simp [hz]
    · have hnc : ¬((w.tasks self).state.state_type = .Dirty ∧
          0 < activeOldScopes list w) := fun hcc => hd hcc.1
      rw [hstt, if_neg hnc]
      simp [hd]
  -- stage w3
  obtain ⟨r1, r2, r3, r4⟩ := removeSelfFromOldScopes_spec self a.1.state_type list a.2.1 hnd
  rw [← hw3] at r1 r2 r3 r4
  -- assemble
  refine ⟨?_, hstchildren, ?_, ?_, ?_, ?_⟩
  · simp [hstscope]
  · intro p hp
    obtain ⟨u1, u2, u3, u4, u5⟩ :=
      removeSelfScopeUpdate_fields self a.1.state_type (a.2.1.scopes p.1)
    have hsc : (w3.setTask self { w.tasks self with state := a.1 }).scopes p.1 =
        removeSelfScopeUpdate self a.1.state_type (a.2.1.scopes p.1) := by
      simpa using r1 p hp
    refine ⟨?_, ?_, ?_, ?_⟩
    · rw [hsc, u1, hap p hp]
    · rw [hsc, u3, hap p hp]
    · rw [hsc, u4, hap p hp]
      by_cases hD : a.1.state_type = .Done
      · rw [if_pos hD, if_pos (hDone.mp hD)]
      · rw [if_neg hD, if_neg (fun hh => hD (hDone.mpr hh))]
    · rw [hsc, u5, hap p hp]
      by_cases hD : a.1.state_type = .Dirty
      · rw [if_pos hD, if_pos (hDirty.mp hD)]
      · rw [if_neg hD, if_neg (fun hh => hD (hDirty.mpr hh))]
  · have hsc : (w3.setTask self { w.tasks self with state := a.1 }).scopes R =
        a.2.1.scopes R := by
      simpa using r2 R hniR
    rw [hsc, haRa]
  · have hsc : (w3.setTask self { w.tasks self with state := a.1 }).scopes R =
        a.2.1.scopes R := by
      simpa using r2 R hniR
    rw [hsc, haRt]
  · have hsc : (w3.setTask self { w.tasks self with state := a.1 }).scopes R =
        a.2.1.scopes R := by
      simpa using r2 R hniR
    rw [hsc, haRu]

/-! ## C6: `make_root_scoped` -/

/-- C6: promotion is idempotent — an already-Root task returns immediately
with no state change; an Inner task gets one fresh scope `R` (the next
scope id), its membership replaced by `Root R`; `R` is added as child of
every old scope `S` with `S`'s former count as multiplicity; `R`'s
active count is bumped by exactly the number of old scopes observed
active; the task itself is added to `R` (adjusting `R.tasks` and
`R.unfinished_tasks`; stated for a task with no children, whose final
`R` counters are exactly the self-addition); and every old scope's
`tasks` counter drops by one, its `unfinished_tasks` by one when the
task is not Done, and the task leaves its `dirty_tasks` when it is dirty
at that point (Dirty on entry and no old scope active). -/
theorem claim_c6_make_root_scoped (fuel : Nat) (w : Backend) (self : TaskId) :
    (∀ s, (w.tasks self).state.scopes = .Root s →
        Task.make_root_scoped_internal fuel self w = some (w, true, []))
    ∧ (∀ list, (w.tasks self).state.scopes = .Inner list →
        (list.map Prod.fst).Nodup →
        (∀ p ∈ list, (p : TaskScopeId × Nat).1 ≠ w.next_scope) →
        ∀ w' kept effects,
          Task.make_root_scoped_internal fuel self w = some (w', kept, effects) →
          (w'.tasks self).state.scopes = .Root w.next_scope
          ∧ (∀ p ∈ list,
              (w'.scopes p.1).children =
                assocBump (w.scopes p.1).children w.next_scope p.2
              ∧ (w'.scopes p.1).tasks = (w.scopes p.1).tasks - 1
              ∧ (w'.scopes p.1).unfinished_tasks =
                  (if (w.tasks self).state.state_type = .Done
                   then (w.scopes p.1).unfinished_tasks
                   else (w.scopes p.1).unfinished_tasks - 1)
              ∧ (w'.scopes p.1).dirty_tasks =
                  (if (w.tasks self).state.state_type = .Dirty ∧
                      activeOldScopes list w = 0
                   then ((w.scopes p.1).dirty_tasks).erase self
                   else (w.scopes p.1).dirty_tasks))
          ∧ (w'.scopes w.next_scope).active_count = activeOldScopes list w
          ∧ ((w.tasks self).state.children = [] →
              (w'.scopes w.next_scope).tasks = 1
              ∧ (w'.scopes w.next_scope).unfinished_tasks =
                  (if (w.tasks self).state.state_type = .Done then 0 else 1))) := by
  constructor
  · intro s hsc
    simp [Task.make_root_scoped_internal, hsc]
  · intro list hscopes hnd hfresh w' kept effects heq
    obtain ⟨hP1, hP2, hP3, hP4, hP5, hP6⟩ := promoteShallow_spec self list w hnd hfresh
    simp only [Task.make_root_scoped_internal, hscopes] at heq
    split at heq
    · split at heq
      · exact absurd heq (by simp)
      · rename_i q hq
        injection heq with h2
        injection h2 with ha hrest
        obtain ⟨pr1, pr2, pr3, pr4⟩ :=
          addChildrenToScope_preserves fuel w.next_scope _ _ _ _ hq
        refine ⟨?_, ?_, ?_, ?_⟩
        · rw [← ha]
          exact pr3 self w.next_scope hP1
        · intro p hp
          obtain ⟨e1, e2, e3, e4⟩ := pr1 p.1 (hfresh p hp)
          obtain ⟨c1, c2, c3, c4⟩ := hP3 p hp
          exact ⟨by rw [← ha, e1, c1], by rw [← ha, e3, c2], by rw [← ha, e4, c3],
            by rw [← ha, e2, c4]⟩
        · rw [← ha, pr2, hP4]
        · intro hch
          have hch2 : (promoteShallow self list w).2.1.children = [] := by
            rw [hP2, hch]
          rw [hch2] at hq
          have htriv : some ((promoteShallow self list w).1, ([] : List Effect)) = some q := by
            rw [← hq]
            rfl
          injection htriv with h3
          have hq1 : q.1 = (promoteShallow self list w).1 := by rw [← h3]
          exact ⟨by rw [← ha, hq1]; exact hP5, by rw [← ha, hq1]; exact hP6⟩
    · injection heq with h2
      injection h2 with ha hrest
      refine ⟨?_, ?_, ?_, ?_⟩
      · rw [← ha]
        exact hP1
      · intro p hp
        obtain ⟨c1, c2, c3, c4⟩ := hP3 p hp
        exact ⟨by rw [← ha]; exact c1, by rw [← ha]; exact c2, by rw [← ha]; exact c3,
          by rw [← ha]; exact c4⟩
      · rw [← ha]
        exact hP4
      · intro hch
        exact ⟨by rw [← ha]; exact hP5, by rw [← ha]; exact hP6⟩

/-- C6 witness: promoting the concrete Inner task creates root scope 50
with active count 1 (scope 1 was active, scope 2 was not) and installs
`Root 50` as the membership; the already-Root fixture returns unchanged. -/
theorem claim_c6_make_root_scoped_witness :
    (wC6.tasks 0).state.scopes = .Inner [(1, 2), (2, 1)]
    ∧ (wRootFix.tasks 0).state.scopes = .Root 7
    ∧ Task.make_root_scoped_internal 3 0 wRootFix = some (wRootFix, true, [])
    ∧ scopesAfter (Task.make_root_scoped_internal 5 0 wC6) 0 = some (.Root 50)
    ∧ scopeActiveAfter (Task.make_root_scoped_internal 5 0 wC6) 50 = some 1 := by
  have hiss : (Task.make_root_scoped_internal 5 0 wC6).isSome = true := by decide
  refine ⟨by decide, by decide,
    (claim_c6_make_root_scoped 3 wRootFix 0).1 7 (by decide), ?_⟩
  cases hm : Task.make_root_scoped_internal 5 0 wC6 with
  | none =>
      rw [hm] at hiss
      exact absurd hiss (by simp)
  | some trip =>
      obtain ⟨w', kept, effects⟩ := trip
      have hfacts := (claim_c6_make_root_scoped 5 wC6 0).2 [(1, 2), (2, 1)] (by decide)
        (by decide) (by decide) w' kept effects hm
      have h50 : wC6.next_scope = 50 := by decide
      rw [h50] at hfacts
      constructor
      · simp only [scopesAfter]
        rw [hfacts.1]
      · simp only [scopeActiveAfter]
        rw [hfacts.2.2.1]
        decide

end Turbo
